import Mathlib

/-!
Verification development for the TalentScout hiring-assistant chatbot
(`app.py` + `utils.py`): a shallow embedding of its text utilities, LLM
helper functions and the per-message conversation state machine, together
with theorems about the behaviour of these functions.

Modelling conventions:
* Python strings are Lean `String`s; the Python string operations used by
  the program (`strip`, `lower`, `capitalize`, `split`, `isdigit`, …) are
  re-implemented over the underlying `List Char`, at ASCII fidelity (the
  program only manipulates ASCII-relevant classes: the regexes `[a-zA-Z]`,
  `\d`, `\w`, `\b` and the whitespace set of `str.strip`).
* The generative-text backend (the Gemini SDK call inside `safe_generate`)
  is a parameter `Backend : String → Nat → Option String`: for a prompt and
  an attempt index it either returns the response text (`some`) or fails
  with an exception (`none`).  `json.loads` is modelled by an executable
  JSON parser over a `JVal` value type (numbers restricted to integers,
  which is all the claims need).
* Streamlit session state becomes an explicit `Session` record, `st.stop()`
  becomes the `stopped` flag of an `Outcome.ok`, and an exception escaping
  the message handler becomes `Outcome.raised` (carrying the mutations
  performed before the raise, since Python mutates state in place).
-/

set_option maxHeartbeats 1000000
set_option maxRecDepth 10000

namespace TalentScout

/-! ## ASCII character classes (Python `str` / `re` semantics) -/

/-- The whitespace characters stripped by Python `str.strip()` (ASCII part):
space and `\t\n\v\f\r`. -/
def isPySpace (c : Char) : Bool := c.toNat == 32 || (9 ≤ c.toNat && c.toNat ≤ 13)

/-- ASCII letter, the class `[a-zA-Z]`. -/
def isAsciiLetter (c : Char) : Bool :=
  (65 ≤ c.toNat && c.toNat ≤ 90) || (97 ≤ c.toNat && c.toNat ≤ 122)

/-- ASCII digit, the class `\d` (ASCII part). -/
def isAsciiDigit (c : Char) : Bool := 48 ≤ c.toNat && c.toNat ≤ 57

/-- The regex word-character class `\w` (ASCII part): letters, digits, `_`. -/
def wordChar (c : Char) : Bool := isAsciiLetter c || isAsciiDigit c || c.toNat == 95

/-! ## Python string operations over `List Char` -/

/-- `str.strip()` on the character list. -/
def stripData (l : List Char) : List Char :=
  ((l.dropWhile isPySpace).reverse.dropWhile isPySpace).reverse

/-- `str.strip()`. -/
def pyStrip (s : String) : String := ⟨stripData s.data⟩

/-- `str.lower()` on one character (ASCII). -/
def pyLowerChar (c : Char) : Char :=
  if 65 ≤ c.toNat ∧ c.toNat ≤ 90 then Char.ofNat (c.toNat + 32) else c

/-- `str.upper()` on one character (ASCII). -/
def pyUpperChar (c : Char) : Char :=
  if 97 ≤ c.toNat ∧ c.toNat ≤ 122 then Char.ofNat (c.toNat - 32) else c

/-- `str.lower()`. -/
def pyLower (s : String) : String := ⟨s.data.map pyLowerChar⟩

/-- `str.capitalize()`: first character upper-cased, the rest lower-cased. -/
def pyCapitalize (s : String) : String :=
  match s.data with
  | [] => ""
  | c :: r => ⟨pyUpperChar c :: r.map pyLowerChar⟩

/-- `str.split(sep)` for a one-character separator, over character lists.
`splitChar ',' "" = [[]]`, like Python `"".split(",") == [""]`. -/
def splitChar (sep : Char) : List Char → List (List Char)
  | [] => [[]]
  | c :: r =>
    let rest := splitChar sep r
    if c == sep then [] :: rest
    else
      match rest with
      | h :: t => (c :: h) :: t
      | [] => [[c]]

/-- `str.split(sep, 1)`: the part before the first separator, and (when the
separator occurs) the part after it. -/
def pySplitFirst (sep : Char) : List Char → List Char × Option (List Char)
  | [] => ([], none)
  | c :: r =>
    if c == sep then ([], some r)
    else
      let p := pySplitFirst sep r
      (c :: p.1, p.2)

/-- `str.split()` with no argument: maximal non-whitespace runs
(the accumulator holds the current run, reversed). -/
def pyWordsAux : List Char → List Char → List (List Char)
  | [], acc => if acc.isEmpty then [] else [acc.reverse]
  | c :: r, acc =>
    if isPySpace c then
      if acc.isEmpty then pyWordsAux r [] else acc.reverse :: pyWordsAux r []
    else pyWordsAux r (c :: acc)

/-- `str.split()` with no argument. -/
def pyWords (l : List Char) : List (List Char) := pyWordsAux l []

/-- Maximal runs of characters agreeing on `wordChar`: the non-empty pieces
produced by `re.split(r"(\W+)", value)` (tokens and separators, in order).
The accumulator holds the current run, reversed. -/
def runsAux : List Char → List Char → List (List Char)
  | [], acc => if acc.isEmpty then [] else [acc.reverse]
  | c :: r, acc =>
    match acc with
    | [] => runsAux r [c]
    | a :: _ =>
      if wordChar c == wordChar a then runsAux r (c :: acc)
      else acc.reverse :: runsAux r [c]

/-- Maximal `wordChar`-homogeneous runs of a character list. -/
def runs (l : List Char) : List (List Char) := runsAux l []

/-- `"*" * n`. -/
def starsChars (n : Nat) : List Char := List.replicate n '*'

/-- `int(s)` for a decimal string: optional surrounding whitespace, optional
sign, at least one digit; `none` models the `ValueError`. -/
def pyParseIntStr (s : String) : Option Int :=
  let core : List Char → Option Int := fun ds =>
    if !ds.isEmpty && ds.all isAsciiDigit then
      some (ds.foldl (fun n c => n * 10 + ((c.toNat : Int) - 48)) 0)
    else none
  match stripData s.data with
  | '-' :: ds => (core ds).map (fun n => -n)
  | '+' :: ds => core ds
  | ds => core ds

/-! ## `utils.py`: the text utilities -/

/-- `END_KEYWORDS` (a Python set; only membership is ever used). -/
def END_KEYWORDS : List String := ["bye", "exit", "quit", "stop", "end", "thank you", "thanks"]

/-- `utils.is_end_message`: trimmed, lower-cased exact membership test. -/
def is_end_message (s : String) : Bool := END_KEYWORDS.contains (pyLower (pyStrip s))

/-- One piece of `utils.anonymize`: an all-alphabetic token of length > 1
keeps its first character and masks the rest; an all-digit run of length ≥ 3
is fully masked; anything else is kept verbatim. -/
def maskRun (p : List Char) : List Char :=
  if p.all isAsciiLetter && decide (1 < p.length) then
    match p with
    | [] => []
    | c :: rest => c :: starsChars rest.length
  else if p.all isAsciiDigit && decide (3 ≤ p.length) then starsChars p.length
  else p

/-- `utils.anonymize`. -/
def anonymize (value : String) : String :=
  if value = "" then value
  else ⟨((runs value.data).map maskRun).flatten⟩

/-- Body of `utils.mask_email` after the strip: split at the first `@`;
without an `@`, or with an empty local part, fall back to `anonymize`;
otherwise keep the first local character, mask with `max 1 (len-1)` stars,
keep the domain. -/
def mask_email_stripped (e : String) : String :=
  match pySplitFirst '@' e.data with
  | (_, none) => anonymize e
  | (user, some domain) =>
    if user.isEmpty then anonymize e
    else ⟨user.take 1 ++ starsChars (max 1 (user.length - 1)) ++ '@' :: domain⟩

/-- `utils.mask_email` (the function first strips its argument). -/
def mask_email (email : String) : String := mask_email_stripped (pyStrip email)

/-- `utils.tech_list_from_input`: split on commas, strip each token, drop
empty tokens and tokens with no ASCII letter, truncate each token to 50
characters, keep at most 10. -/
def tech_list_from_input (s : String) : List String :=
  let items := (splitChar ',' s.data).map stripData
  let items := items.filter (fun t => !t.isEmpty && t.any isAsciiLetter)
  ((items.map (fun t => t.take 50)).take 10).map (fun t => (⟨t⟩ : String))

/-- `[1-9]`, i.e. the first alternative of the rating regex. -/
def digit19 (c : Char) : Bool := 49 ≤ c.toNat && c.toNat ≤ 57

/-- `\b` holds on the left of a word character when the preceding character
(if any) is not a word character. -/
def nonWordAt : Option Char → Bool
  | none => true
  | some c => !wordChar c

/-- One attempt of `re.search(r"\b([1-9]|10)\b", ·)` at a fixed position:
`prev` is the character before the position.  Mirrors the regex engine:
the alternative `[1-9]` is tried first, and on a failing trailing `\b` the
engine backtracks into the alternative `10`. -/
def tryHere (prev : Option Char) (c : Char) (rest : List Char) : Option Int :=
  if nonWordAt prev && digit19 c then
    if nonWordAt rest.head? then some ((c.toNat : Int) - 48)
    else if c == '1' then
      match rest with
      | c2 :: r2 => if c2 == '0' && nonWordAt r2.head? then some 10 else none
      | [] => none
    else none
  else none

/-- Leftmost search of `re.search(r"\b([1-9]|10)\b", ·)`. -/
def searchFrom : Option Char → List Char → Option Int
  | _, [] => none
  | prev, c :: rest =>
    match tryHere prev c rest with
    | some n => some n
    | none => searchFrom (some c) rest

/-- `utils.parse_1_to_10`. -/
def parse_1_to_10 (s : String) : Option Int := searchFrom none (stripData s.data)

/-! ## JSON values and a model of `json.loads`

`json.loads` is Python-standard-library behaviour (an external collaborator
of the repository code); it is modelled by an executable recursive-descent
parser over the value type `JVal`.  Numbers are restricted to integers —
no claim depends on fractional numbers.  Parsed objects are normalised the
way Python builds a `dict`: a duplicated key keeps its first position and
its last value. -/

inductive JVal where
  | null : JVal
  | bool : Bool → JVal
  | num : Int → JVal
  | str : String → JVal
  | arr : List JVal → JVal
  | obj : List (String × JVal) → JVal

/-- Python truthiness of a parsed JSON value (`None`, `False`, `0`, `""`,
`[]`, `{}` are falsy). -/
def truthy : JVal → Bool
  | JVal.null => false
  | JVal.bool b => b
  | JVal.num n => n != 0
  | JVal.str s => s != ""
  | JVal.arr l => !l.isEmpty
  | JVal.obj m => !m.isEmpty

/-- Python `dict` lookup over an association list whose keys are unique. -/
def dictGet {α : Type} : List (String × α) → String → Option α
  | [], _ => none
  | (k, v) :: r, key => if k = key then some v else dictGet r key

/-- Python `dict` assignment: an existing key keeps its position and gets
the new value, a new key is appended. -/
def dictSet {α : Type} : List (String × α) → String → α → List (String × α)
  | [], key, v => [(key, v)]
  | (k, w) :: r, key, v => if k = key then (key, v) :: r else (k, w) :: dictSet r key v

/-- Build a Python `dict` from parsed key/value pairs (last value wins). -/
def dictOfPairs {α : Type} (l : List (String × α)) : List (String × α) :=
  l.foldl (fun m p => dictSet m p.1 p.2) []

mutual

/-- Python `repr` of a parsed JSON value (single-quoted strings, `None`,
`True`/`False`); string escaping is not reproduced — no claim depends on
it. -/
def jrepr : JVal → String
  | JVal.null => "None"
  | JVal.bool true => "True"
  | JVal.bool false => "False"
  | JVal.num n => toString n
  | JVal.str s => "\x27" ++ s ++ "\x27"
  | JVal.arr l => "[" ++ jreprList l ++ "]"
  | JVal.obj m => "\x7b" ++ jreprObj m ++ "\x7d"

/-- Comma-separated `repr` of list elements. -/
def jreprList : List JVal → String
  | [] => ""
  | [v] => jrepr v
  | v :: rest => jrepr v ++ ", " ++ jreprList rest

/-- Comma-separated `repr` of object members. -/
def jreprObj : List (String × JVal) → String
  | [] => ""
  | [(k, v)] => "\x27" ++ k ++ "\x27: " ++ jrepr v
  | (k, v) :: rest => "\x27" ++ k ++ "\x27: " ++ jrepr v ++ ", " ++ jreprObj rest

end

/-- Python `str()` of a parsed JSON value: a string is itself, anything
else renders as its `repr`. -/
def jstr : JVal → String
  | JVal.str s => s
  | v => jrepr v

/-- `{` as a character. -/
def lbrace : Char := Char.ofNat 123

/-- `}` as a character. -/
def rbrace : Char := Char.ofNat 125

/-- JSON whitespace. -/
def isJsonWs (c : Char) : Bool := c == ' ' || c == '\t' || c == '\n' || c == '\r'

/-- Skip JSON whitespace. -/
def skipWs (l : List Char) : List Char := l.dropWhile isJsonWs

/-- Value of a hexadecimal digit. -/
def hexVal (c : Char) : Option Nat :=
  if 48 ≤ c.toNat && c.toNat ≤ 57 then some (c.toNat - 48)
  else if 97 ≤ c.toNat && c.toNat ≤ 102 then some (c.toNat - 87)
  else if 65 ≤ c.toNat && c.toNat ≤ 70 then some (c.toNat - 55)
  else none

/-- Body of a JSON string, after the opening quote: returns the decoded
content and the remainder after the closing quote. -/
def parseStringBody : Nat → List Char → Option (List Char × List Char)
  | 0, _ => none
  | _, [] => none
  | fuel + 1, c :: r =>
    if c == '"' then some ([], r)
    else if c == '\\' then
      match r with
      | [] => none
      | e :: r2 =>
        if e == 'u' then
          match r2 with
          | h1 :: h2 :: h3 :: h4 :: r3 => do
            let n1 ← hexVal h1
            let n2 ← hexVal h2
            let n3 ← hexVal h3
            let n4 ← hexVal h4
            let rest ← parseStringBody fuel r3
            pure (Char.ofNat (((n1 * 16 + n2) * 16 + n3) * 16 + n4) :: rest.1, rest.2)
          | _ => none
        else do
          let ch ←
            if e == '"' then some '"'
            else if e == '\\' then some '\\'
            else if e == '/' then some '/'
            else if e == 'n' then some '\n'
            else if e == 't' then some '\t'
            else if e == 'r' then some '\r'
            else if e == 'b' then some (Char.ofNat 8)
            else if e == 'f' then some (Char.ofNat 12)
            else none
          let rest ← parseStringBody fuel r2
          pure (ch :: rest.1, rest.2)
    else do
      let rest ← parseStringBody fuel r
      pure (c :: rest.1, rest.2)

/-- A non-empty run of decimal digits, as a number. -/
def parseDigits (l : List Char) : Option (Nat × List Char) :=
  let ds := l.takeWhile isAsciiDigit
  if ds.isEmpty then none
  else some (ds.foldl (fun n c => n * 10 + (c.toNat - 48)) 0, l.drop ds.length)

mutual

/-- One JSON value (fuel-indexed recursive descent model of `json.loads`). -/
def parseJVal : Nat → List Char → Option (JVal × List Char)
  | 0, _ => none
  | fuel + 1, l =>
    match skipWs l with
    | [] => none
    | c :: r =>
      if c == '"' then (parseStringBody fuel r).map (fun p => (JVal.str ⟨p.1⟩, p.2))
      else if c == lbrace then
        match skipWs r with
        | c2 :: r2 =>
          if c2 == rbrace then some (JVal.obj [], r2)
          else (parseMembers fuel (c2 :: r2)).map (fun p => (JVal.obj (dictOfPairs p.1), p.2))
        | [] => none
      else if c == '[' then
        match skipWs r with
        | c2 :: r2 =>
          if c2 == ']' then some (JVal.arr [], r2)
          else (parseElems fuel (c2 :: r2)).map (fun p => (JVal.arr p.1, p.2))
        | [] => none
      else if c == 't' then
        match r with
        | 'r' :: 'u' :: 'e' :: r2 => some (JVal.bool true, r2)
        | _ => none
      else if c == 'f' then
        match r with
        | 'a' :: 'l' :: 's' :: 'e' :: r2 => some (JVal.bool false, r2)
        | _ => none
      else if c == 'n' then
        match r with
        | 'u' :: 'l' :: 'l' :: r2 => some (JVal.null, r2)
        | _ => none
      else if c == '-' then (parseDigits r).map (fun p => (JVal.num (-(p.1 : Int)), p.2))
      else if isAsciiDigit c then (parseDigits (c :: r)).map (fun p => (JVal.num p.1, p.2))
      else none

/-- One or more comma-separated JSON values followed by `]`. -/
def parseElems : Nat → List Char → Option (List JVal × List Char)
  | 0, _ => none
  | fuel + 1, l => do
    let (v, rest) ← parseJVal fuel l
    match skipWs rest with
    | ',' :: r2 => do
      let (es, rest2) ← parseElems fuel r2
      pure (v :: es, rest2)
    | c :: r2 => if c == ']' then pure ([v], r2) else none
    | [] => none

/-- One or more `"key": value` members followed by `}`. -/
def parseMembers : Nat → List Char → Option (List (String × JVal) × List Char)
  | 0, _ => none
  | fuel + 1, l =>
    match skipWs l with
    | c :: r =>
      if c == '"' then do
        let (ks, rest) ← parseStringBody fuel r
        match skipWs rest with
        | ':' :: r2 => do
          let (v, rest2) ← parseJVal fuel r2
          match skipWs rest2 with
          | ',' :: r4 => do
            let (ms, rest5) ← parseMembers fuel r4
            pure ((⟨ks⟩, v) :: ms, rest5)
          | c2 :: r4 => if c2 == rbrace then pure ([(⟨ks⟩, v)], r4) else none
          | [] => none
        | _ => none
      else none
    | [] => none

end

/-- Model of `json.loads`: parse one value, allow surrounding whitespace,
reject trailing garbage. -/
def json_loads (s : String) : Option JVal :=
  match parseJVal (s.data.length + 2) s.data with
  | some (v, rest) => if (skipWs rest).isEmpty then some v else none
  | none => none

/-- `utils.safe_extract_json`: try a whole-string parse; if that does not
produce a JSON object, parse the substring from the first `{` to the last
`}`; `none` when both fail or the result is not an object. -/
def safe_extract_json (text : String) : Option (List (String × JVal)) :=
  if text = "" then none
  else
    match json_loads text with
    | some (JVal.obj m) => some m
    | _ =>
      match text.data.findIdx? (fun c => c == lbrace),
            text.data.reverse.findIdx? (fun c => c == rbrace) with
      | some st, some rIdx =>
        let en := text.data.length - 1 - rIdx
        if st < en then
          match json_loads ⟨(text.data.drop st).take (en + 1 - st)⟩ with
          | some (JVal.obj m) => some m
          | _ => none
        else none
      | _, _ => none

/-! ## `app.py`: the generation adapter and the three LLM helpers -/

/-- The external text-generation backend, abstracted at the `safe_generate`
call boundary: for a prompt and an attempt index, either the normalised
response text (`some`) or a raised exception (`none`).  The SDK
response-shape unwrapping (`.text` / `.content` / `str(resp)`) happens
inside this boundary. -/
def Backend : Type := String → Nat → Option String

/-- Retry loop of `app.safe_generate`: attempts `i, i+1, …` while fuel
lasts; exhausting the retries models the final `raise RuntimeError`. -/
def safe_generate_go (B : Backend) (prompt : String) : Nat → Nat → Except Unit String
  | _, 0 => Except.error ()
  | i, fuel + 1 =>
    match B prompt i with
    | some r => Except.ok r
    | none => safe_generate_go B prompt (i + 1) fuel

/-- `app.safe_generate` (the backoff sleep has no observable effect in this
model). -/
def safe_generate (B : Backend) (prompt : String) (retries : Nat) : Except Unit String :=
  safe_generate_go B prompt 0 retries

/-- The question-generation prompt of `app.llm_generate_questions`. -/
def questions_prompt (techs : List String) : String :=
  "\nGenerate interview questions for the following technologies: " ++
  String.intercalate ", " techs ++
  ".\nReturn ONLY JSON like:\n\x7b\n  \"Python\": [\"Q1\", \"Q2\", \"Q3\"],\n  \"Django\": [\"Q1\", \"Q2\", \"Q3\"]\n\x7d\n- 3 to 5 practical questions per technology\n- Keep questions clear and concise.\nNo extra text besides JSON.\n"

/-- The three generic fallback questions padded in when the model
under-returns for a tech. -/
def fallback_questions (t : String) : List String :=
  ["Briefly explain a key concept in " ++ t ++ ".",
   "How do you debug common issues in " ++ t ++ "?",
   "Describe a challenging " ++ t ++ " task you solved."]

/-- Python `a or b or …  or []`: the first truthy hit of the lookups, and
the (empty-list) default when every lookup is missing or falsy. -/
def firstTruthy : List (Option JVal) → JVal
  | [] => JVal.arr []
  | some v :: rest => if truthy v then v else firstTruthy rest
  | none :: rest => firstTruthy rest

/-- `data.get(t) or data.get(t.capitalize()) or data.get(t.lower()) or []`. -/
def chain_lookup (data : List (String × JVal)) (t : String) : JVal :=
  firstTruthy [dictGet data t, dictGet data (pyCapitalize t), dictGet data (pyLower t)]

/-- `[str(q).strip() for q in qs if str(q).strip()]`: stringify and strip
each element, keep the non-empty results. -/
def usable_questions (l : List JVal) : List String :=
  l.filterMap (fun q =>
    let s := pyStrip (jstr q)
    if s = "" then none else some s)

/-- The per-tech sanitisation step of `app.llm_generate_questions`.  It only
produces a value when the looked-up JSON value is a list
(`isinstance(qs, list)`); the assignment `cleaned[t] = qs[:5]` sits inside
that guard, so a truthy non-list leaves the tech absent. -/
def clean_one (t : String) (v : JVal) : Option (List String) :=
  match v with
  | JVal.arr l =>
    let qs := usable_questions l
    some ((if qs.length < 3 then qs ++ fallback_questions t else qs).take 5)
  | _ => none

/-- The sanitisation loop of `app.llm_generate_questions` over the parsed
JSON object. -/
def clean_questions (techs : List String) (data : List (String × JVal)) :
    List (String × List String) :=
  techs.foldl (fun cleaned t =>
    match clean_one t (chain_lookup data t) with
    | some qs => dictSet cleaned t qs
    | none => cleaned) []

/-- `app.llm_generate_questions`: one backend call with 3 retries, then
defensive JSON extraction (`or {}`) and per-tech sanitisation.  A failing
backend call propagates (`Except.error`). -/
def llm_generate_questions (B : Backend) (techs : List String) :
    Except Unit (List (String × List String)) :=
  match safe_generate B (questions_prompt techs) 3 with
  | Except.error e => Except.error e
  | Except.ok raw => Except.ok (clean_questions techs ((safe_extract_json raw).getD []))

/-- The scoring prompt of `app.llm_score_answer`. -/
def score_prompt (question answer : String) : String :=
  "\nRate the following interview answer from 1 to 10 (higher is better).\nReturn ONLY JSON: \x7b\"score\": <int 1-10>, \"feedback\": \"short constructive feedback\"\x7d\n\nQuestion: " ++
  question ++ "\nAnswer: " ++ answer ++ "\n"

/-- `score = int(score) if score is not None else None`, with the
surrounding `try`/`except` that absorbs a failing coercion. -/
def coerceScore : Option JVal → Option Int
  | none => none
  | some JVal.null => none
  | some (JVal.num n) => some n
  | some (JVal.bool b) => some (if b then 1 else 0)
  | some (JVal.str s) => pyParseIntStr s
  | some _ => none

/-- `data.get("feedback")`: a JSON `null` value and a missing key both give
Python `None`. -/
def normFeedback : Option JVal → Option JVal
  | some JVal.null => none
  | x => x

/-- `app.llm_score_answer`: one backend call with 2 retries, JSON
extraction, score coercion.  A failing backend call propagates. -/
def llm_score_answer (B : Backend) (question answer : String) :
    Except Unit (Option Int × Option JVal) :=
  match safe_generate B (score_prompt question answer) 2 with
  | Except.error e => Except.error e
  | Except.ok raw =>
    let data := (safe_extract_json raw).getD []
    Except.ok (coerceScore (dictGet data "score"), normFeedback (dictGet data "feedback"))

/-! ## `app.py`: session state -/

/-- The seven collected fields, their fixed interview order. -/
def FIELDS : List String :=
  ["Full Name", "Email Address", "Phone Number", "Years of Experience",
   "Desired Position(s)", "Current Location", "Tech Stack"]

/-- `st.session_state.candidate`: a dictionary with the seven fixed keys. -/
structure Candidate where
  fullName : Option String
  email : Option String
  phone : Option String
  years : Option String
  positions : Option String
  location : Option String
  techStack : Option String

/-- One record appended to `st.session_state.answers`. -/
structure AnswerRec where
  tech : String
  question : String
  answer : String
  score : Option Int
  feedback : Option JVal

/-- One line appended to `candidates.jsonl` by `save_simulated` (the
timestamp the helper adds is wall-clock input, outside this model). -/
structure Snapshot where
  info : Candidate
  ratings : List (String × Int)
  answers : List AnswerRec
  summary : Option String

/-- The conversation phases of `st.session_state.step`. -/
inductive Step where
  | greet
  | fields
  | ratings
  | tech_q
  | summary
  | done
deriving DecidableEq

/-- The per-conversation state held in `st.session_state`.  `rating_idx`
is read with `st.session_state.get("rating_idx", 0)`, so it carries
default `0` here from the start. -/
structure Session where
  history : List (String × String)
  step : Step
  field_index : Nat
  candidate : Candidate
  techs : List String
  ratings : List (String × Int)
  qmap : List (String × List String)
  flat_questions : List (String × String)
  q_ptr : Nat
  answers : List AnswerRec
  consent : Bool
  rating_idx : Nat
  final_summary : Option String

/-- The summary prompt of `app.llm_final_summary`; the embedded `info`,
`ratings` and `answers` render with the Python-`str` style of `jrepr`. -/
def reprOptStr : Option String → String
  | none => "None"
  | some s => "\x27" ++ s ++ "\x27"

/-- Render the candidate dictionary. -/
def reprInfo (c : Candidate) : String :=
  "\x7b\x27Full Name\x27: " ++ reprOptStr c.fullName ++
  ", \x27Email Address\x27: " ++ reprOptStr c.email ++
  ", \x27Phone Number\x27: " ++ reprOptStr c.phone ++
  ", \x27Years of Experience\x27: " ++ reprOptStr c.years ++
  ", \x27Desired Position(s)\x27: " ++ reprOptStr c.positions ++
  ", \x27Current Location\x27: " ++ reprOptStr c.location ++
  ", \x27Tech Stack\x27: " ++ reprOptStr c.techStack ++ "\x7d"

/-- Render the ratings dictionary. -/
def reprRatings (r : List (String × Int)) : String :=
  "\x7b" ++ String.intercalate ", "
    (r.map (fun p => "\x27" ++ p.1 ++ "\x27: " ++ toString p.2)) ++ "\x7d"

/-- Render one answer record. -/
def reprAnswer (a : AnswerRec) : String :=
  "\x7b\x27tech\x27: \x27" ++ a.tech ++ "\x27, \x27question\x27: \x27" ++ a.question ++
  "\x27, \x27answer\x27: \x27" ++ a.answer ++ "\x27, \x27score\x27: " ++
  (match a.score with | none => "None" | some n => toString n) ++
  ", \x27feedback\x27: " ++
  (match a.feedback with | none => "None" | some v => jrepr v) ++ "\x7d"

/-- The summary prompt of `app.llm_final_summary`. -/
def summary_prompt (info : Candidate) (ratings : List (String × Int))
    (answers : List AnswerRec) : String :=
  "\nYou are an interview assistant. Summarize the candidate in 130-180 words:\n- Strengths\n- Weaknesses\n- Overall fit for the role\n\nContext:\nInfo: " ++
  reprInfo info ++ "\nSelf-ratings: " ++ reprRatings ratings ++
  "\nAnswers & scores: [" ++ String.intercalate ", " (answers.map reprAnswer) ++
  "]\n\nReturn a concise, readable paragraph (no JSON).\n"

/-- `app.llm_final_summary`: one backend call with 2 retries, trimmed.  A
failing backend call propagates. -/
def llm_final_summary (B : Backend) (info : Candidate)
    (ratings : List (String × Int)) (answers : List AnswerRec) : Except Unit String :=
  match safe_generate B (summary_prompt info ratings answers) 2 with
  | Except.error e => Except.error e
  | Except.ok raw => Except.ok (pyStrip raw)

/-! ## `app.py`: the message handler -/

/-- The result of handling one user message.  `ok` carries the state after
the run, the snapshots appended to `candidates.jsonl` during it, and
whether `st.stop()` cut the run short; `raised` is an exception escaping
the handler (state mutations already performed persist, as they do on the
in-place `st.session_state`). -/
inductive Outcome where
  | ok (s : Session) (saved : List Snapshot) (stopped : Bool)
  | raised (s : Session) (saved : List Snapshot)

/-- The session state after the run, for either outcome. -/
def Outcome.state : Outcome → Session
  | Outcome.ok s _ _ => s
  | Outcome.raised s _ => s

/-- Whether the run completed without an uncaught exception. -/
def Outcome.isOk : Outcome → Bool
  | Outcome.ok _ _ _ => true
  | Outcome.raised _ _ => false

/-- Whether an uncaught exception escaped the handler. -/
def Outcome.isRaised : Outcome → Bool
  | Outcome.ok _ _ _ => false
  | Outcome.raised _ _ => true

/-- The snapshots appended during the run. -/
def Outcome.saved : Outcome → List Snapshot
  | Outcome.ok _ sv _ => sv
  | Outcome.raised _ sv => sv

/-- `say`: emit an assistant chat message and append it to the history. -/
def say (s : Session) (text : String) : Session :=
  { s with history := s.history ++ [("assistant", text)] }

/-- Append the message of the user to the history. -/
def addUser (s : Session) (text : String) : Session :=
  { s with history := s.history ++ [("user", text)] }

/-- The per-field prompts of `ask_next_field`. -/
def fieldPrompt (field : String) : String :=
  if field = "Full Name" then "What is your **Full Name**?"
  else if field = "Email Address" then "Please share your **Email Address**."
  else if field = "Phone Number" then "What is your **Phone Number**?"
  else if field = "Years of Experience" then "How many **Years of Experience** do you have?"
  else if field = "Desired Position(s)" then "What is/are your **Desired Position(s)**?"
  else if field = "Current Location" then "Where are you currently located?"
  else if field = "Tech Stack" then
    "Please list your **Tech Stack** (comma-separated, e.g., Python, Django, React)."
  else ""

/-- `app.ask_next_field`: prompt for the field at `field_index` (a no-op
past the end of `FIELDS`). -/
def ask_next_field (s : Session) : Session :=
  match FIELDS.get? s.field_index with
  | none => s
  | some f => say s (fieldPrompt f)

/-- `app.validate_and_store`: per-field validation; returns the corrective
re-ask message on failure, `none` plus the updated session on success. -/
def validate_and_store (field : String) (user_text : String) (s : Session) :
    Option String × Session :=
  if field = "Full Name" then
    if (pyWords (pyStrip user_text).data).length < 2 then
      (some "Please enter your **first and last name**.", s)
    else
      (none, { s with candidate :=
        { s.candidate with fullName := some (anonymize (pyStrip user_text)) } })
  else if field = "Email Address" then
    if !((pyStrip user_text).data.contains '@') || !((pyStrip user_text).data.contains '.') then
      (some "That doesn’t look like a valid email. Please re-enter your **Email Address**.", s)
    else
      (none, { s with candidate :=
        { s.candidate with email := some (mask_email (pyStrip user_text)) } })
  else if field = "Phone Number" then
    if !(decide (7 ≤ ((pyStrip user_text).data.filter isAsciiDigit).length) &&
         decide (((pyStrip user_text).data.filter isAsciiDigit).length ≤ 15)) then
      (some "Please enter a valid **Phone Number** (7–15 digits).", s)
    else
      (none, { s with candidate :=
        { s.candidate with phone := some (anonymize (pyStrip user_text)) } })
  else if field = "Years of Experience" then
    if (pyStrip user_text).data.isEmpty || !(pyStrip user_text).data.all isAsciiDigit then
      (some "Please enter your experience in **numbers only** (e.g., 3).", s)
    else
      (none, { s with candidate := { s.candidate with years := some (pyStrip user_text) } })
  else if field = "Desired Position(s)" then
    if (pyStrip user_text).length < 2 then
      (some "That seems too short. Please provide your **Desired Position(s)**.", s)
    else
      (none, { s with candidate :=
        { s.candidate with positions := some (pyStrip user_text) } })
  else if field = "Current Location" then
    if (pyStrip user_text).length < 2 then
      (some "Please provide a valid **Current Location** (city/region).", s)
    else
      (none, { s with candidate :=
        { s.candidate with location := some (pyStrip user_text) } })
  else if field = "Tech Stack" then
    if (tech_list_from_input (pyStrip user_text)).isEmpty then
      (some "I couldn\x27t understand your tech stack. Please list technologies **comma-separated** (e.g., Python, Django).", s)
    else
      (none, { s with
        candidate := { s.candidate with
          techStack := some (String.intercalate ", " (tech_list_from_input (pyStrip user_text))) },
        techs := tech_list_from_input (pyStrip user_text) })
  else (none, s)

/-- The `step == "fields"` branch of the handler. -/
def handleFields (s : Session) (user_input : String) : Outcome :=
  match FIELDS.get? s.field_index with
  | none => Outcome.raised s []
  | some field =>
    match validate_and_store field user_input s with
    | (some err, s2) => Outcome.ok (say s2 err) [] false
    | (none, s2) =>
      let s3 := { s2 with field_index := s2.field_index + 1 }
      if s3.field_index < FIELDS.length then Outcome.ok (ask_next_field s3) [] false
      else
        let s4 := { s3 with step := Step.ratings, rating_idx := 0 }
        match s4.techs with
        | t :: _ =>
          Outcome.ok
            (say (say s4 "Before technical questions, please rate your confidence for each tech (1–10).")
              ("On a scale of 1–10, how confident are you in **" ++ t ++ "**?")) [] false
        | [] =>
          Outcome.ok
            { say s4 "Let’s move to technical questions." with
              step := Step.tech_q, q_ptr := 0 } [] false

/-- The `step == "ratings"` branch of the handler. -/
def handleRatings (B : Backend) (s : Session) (user_input : String) : Outcome :=
  if h : s.rating_idx < s.techs.length then
    match parse_1_to_10 user_input with
    | none => Outcome.ok (say s "Please enter a number **1–10**.") [] false
    | some v =>
      let s2 := { s with
        ratings := dictSet s.ratings s.techs[s.rating_idx] v,
        rating_idx := s.rating_idx + 1 }
      if h2 : s.rating_idx + 1 < s.techs.length then
        Outcome.ok
          (say s2 ("Thanks. On a scale of 1–10, how confident are you in **" ++
            s.techs[s.rating_idx + 1] ++ "**?")) [] false
      else
        let s3 := say s2 "Great. Generating technical questions…"
        match llm_generate_questions B s.techs with
        | Except.error _ => Outcome.raised s3 []
        | Except.ok qm =>
          let flat := (s.techs.map (fun t =>
            ((dictGet qm t).getD []).map (fun q => (t, q)))).flatten
          let s4 := { s3 with
            qmap := qm, flat_questions := flat, q_ptr := 0, step := Step.tech_q }
          match flat with
          | first :: _ =>
            Outcome.ok (say s4 ("**" ++ first.1 ++ " Q1:** " ++ first.2)) [] false
          | [] =>
            Outcome.ok
              { say s4 "I couldn\x27t generate questions right now. Please re-enter your **Tech Stack**." with
                step := Step.fields,
                field_index := FIELDS.findIdx (fun f => f = "Tech Stack") } [] false
  else Outcome.ok s [] false

/-- The closing message emitted on `is_end_message` and after the summary. -/
def farewellText : String := "Thank you for your time! Our team will reach out soon. 👋"

/-- The `step == "tech_q"` branch of the handler: score the answer (a
scorer failure is caught and degrades to absent score/feedback), append
the record, advance; after the last question, run the summary flow. -/
def handleTechQ (B : Backend) (s : Session) (user_input : String) : Outcome :=
  if h : s.q_ptr < s.flat_questions.length then
    let current := s.flat_questions[s.q_ptr]
    let ans := pyStrip user_input
    let pack :=
      match llm_score_answer B current.2 ans with
      | Except.ok p => p
      | Except.error _ => (none, none)
    let s2 := { s with
      answers := s.answers ++
        [{ tech := current.1, question := current.2, answer := ans,
           score := pack.1, feedback := pack.2 }],
      q_ptr := s.q_ptr + 1 }
    if h2 : s.q_ptr + 1 < s.flat_questions.length then
      let nq := s.flat_questions[s.q_ptr + 1]
      let cnt := 1 + ((s.flat_questions.take (s.q_ptr + 1)).filter
        (fun p => p.1 = nq.1)).length
      Outcome.ok (say s2 ("**" ++ nq.1 ++ " Q" ++ toString cnt ++ ":** " ++ nq.2)) [] false
    else
      let s3 := say { s2 with step := Step.summary } "Thanks! Preparing a brief summary…"
      let final :=
        match llm_final_summary B s3.candidate s3.ratings s3.answers with
        | Except.ok f => f
        | Except.error _ => "Summary unavailable due to a temporary issue."
      let s4 := { s3 with final_summary := some final }
      let s5 := say (say s4 final) farewellText
      Outcome.ok { s5 with step := Step.done }
        (if s5.consent then
          [{ info := s5.candidate, ratings := s5.ratings,
             answers := s5.answers, summary := some final }]
         else []) false
  else Outcome.ok s [] false

/-- The whole per-message handler (the `if user_input:` block of `app.py`):
the unconditional end-message escape hatch first, then the user message is
logged and dispatched to the current phase. -/
def handle_message (B : Backend) (s : Session) (user_input : String) : Outcome :=
  if is_end_message user_input then
    Outcome.ok (say s farewellText)
      (if s.consent then
        [{ info := s.candidate, ratings := s.ratings,
           answers := s.answers, summary := none }]
       else []) true
  else
    let s1 := addUser s user_input
    match s1.step with
    | Step.fields => handleFields s1 user_input
    | Step.ratings => handleRatings B s1 user_input
    | Step.tech_q => handleTechQ B s1 user_input
    | Step.summary =>
      Outcome.ok (say s1 "Thanks again! You may close this window. 👋") [] false
    | Step.done =>
      Outcome.ok (say s1 "Session completed. Type \x27exit\x27 to close.") [] false
    | Step.greet => Outcome.ok s1 [] false

/-- The session state right after the script-start block ran: the greeting
was emitted, `step` moved from `greet` to `fields`, and the first field
prompt was asked. -/
def initSession : Session :=
  { history :=
      [("assistant", "Hello! I\x27m your AI hiring assistant. Let’s get started with your details."),
       ("assistant", fieldPrompt "Full Name")],
    step := Step.fields,
    field_index := 0,
    candidate :=
      { fullName := none, email := none, phone := none, years := none,
        positions := none, location := none, techStack := none },
    techs := [], ratings := [], qmap := [], flat_questions := [],
    q_ptr := 0, answers := [], consent := false, rating_idx := 0,
    final_summary := none }

/-- Run a sequence of user messages through the handler, one backend for
the whole run. -/
def runTrace (B : Backend) (s : Session) (msgs : List String) : Session :=
  msgs.foldl (fun st m => (handle_message B st m).state) s

/-! ## Concrete scenarios -/

/-- A syntactically valid JSON object that stores a (truthy) string — not a
list — under the key `"Python"`. -/
def oopsJson : String := "\x7b\"Python\": \"oops\"\x7d"

/-- A backend whose every call succeeds and returns `oopsJson`. -/
def oopsBackend : Backend := fun _ _ => some oopsJson

/-- A backend whose every call raises. -/
def failBackend : Backend := fun _ _ => none

/-- Valid answers for the seven profile fields, ending with the single
tech `"Python"`. -/
def msgs7 : List String :=
  ["John Smith", "jdoe@example.com", "1234567", "3", "Engineer", "Paris", "Python"]

/-- The reachable session obtained by answering the seven field prompts
with `msgs7`: phase `ratings`, `field_index = 7`, `techs = ["Python"]`,
waiting for the rating of `"Python"`. -/
def s7ex : Session := runTrace oopsBackend initSession msgs7

/-- A session in the question-asking phase with one pending question. -/
def exampleTechQSession : Session :=
  { initSession with
    step := Step.tech_q,
    techs := ["Python"], flat_questions := [("Python", "Qx")], q_ptr := 0 }

/-! ## Specification-side predicates

These are written from the wording of the claims, to be compared with the
definitions translated from the source. -/

/-- A token the rating pattern accepts: a single digit `1`–`9`, or exactly
`10`. -/
def tokOk (tok : List Char) : Prop :=
  (∃ c, tok = [c] ∧ digit19 c = true) ∨ tok = ['1', '0']

/-- The character immediately before a span that starts after prefix `a`;
`prev` is the character before the whole list. -/
def prevOf (prev : Option Char) (a : List Char) : Option Char :=
  match a.getLast? with
  | some c => some c
  | none => prev

/-- The claim wording "contains a standalone whole-word token": some decomposition
`a ++ tok ++ b` where `tok` is `1`–`9` or `10` and both neighbours (if any)
are non-word characters, with `prev` standing for the character before the
list. -/
def MatchesFrom (prev : Option Char) (l : List Char) : Prop :=
  ∃ a tok b, l = a ++ tok ++ b ∧ tokOk tok ∧
    nonWordAt (prevOf prev a) = true ∧ nonWordAt b.head? = true

/-- `s` contains a standalone whole-word token equal to `1`–`9` or `10`. -/
def hasStandaloneToken (s : String) : Prop := MatchesFrom none s.data

/-! # Theorems -/

/-! ## C7: the end-message escape hatch -/

/-- C7: in every phase, an end-keyword message short-circuits the handler
before any phase dispatch: the closing message is emitted, exactly one
snapshot with absent summary is appended when consent was given (none
otherwise), the run stops, and no other part of the state changes — the
user message is not even logged. -/
theorem c7_end_escape_before_dispatch (B : Backend) (s : Session) (msg : String)
    (h : is_end_message msg = true) :
    handle_message B s msg =
      Outcome.ok { s with history := s.history ++ [("assistant", farewellText)] }
        (if s.consent then
          [{ info := s.candidate, ratings := s.ratings,
             answers := s.answers, summary := none }]
         else []) true := by
  simp [handle_message, h, say]

/-- Witness for C7 at a concrete session and the end keyword `"bye"`. -/
theorem c7_end_escape_witness :
    handle_message oopsBackend initSession "bye" =
      Outcome.ok
        { initSession with
          history := initSession.history ++ [("assistant", farewellText)] } [] true := by
  have h := c7_end_escape_before_dispatch oopsBackend initSession "bye" rfl
  simpa using h

/-! ## Counterexamples for the corrected claims -/

/-- C1 counterexample: with a backend that always fails, the question
generator does not fall back — it raises; sending the last rating then
leaves the handler with an uncaught exception and the session still in the
rating phase, not in the question-asking phase. -/
theorem c1_counterexample :
    llm_generate_questions failBackend ["Python"] = Except.error () ∧
    (handle_message failBackend s7ex "7").isRaised = true ∧
    (handle_message failBackend s7ex "7").state.step = Step.ratings := by
  exact ⟨rfl, rfl, rfl⟩

/-- C2 counterexample: the backend call succeeds and returns the JSON
object `{"Python": "oops"}` — a truthy non-list under the requested tech —
and `llm_generate_questions` returns a mapping with no key at all: the
requested tech `"Python"` is absent, instead of being mapped to ≥ 3
questions. -/
theorem c2_counterexample :
    safe_generate oopsBackend (questions_prompt ["Python"]) 3 = Except.ok oopsJson ∧
    llm_generate_questions oopsBackend ["Python"] =
      Except.ok ([] : List (String × List String)) := by
  exact ⟨rfl, rfl⟩

/-- C3 counterexample: in the reachable session `s7ex` (built by the seven
valid field answers of `msgs7`), `field_index` is `7`; handling the final
rating `"7"` with a backend whose JSON maps the tech to a non-list makes
the flattened question sequence empty, and the recovery transition resets
`field_index` to `6` — a strict decrease. -/
theorem c3_counterexample :
    s7ex.field_index = 7 ∧
    (handle_message oopsBackend s7ex "7").state.field_index = 6 := by
  exact ⟨rfl, rfl⟩

/-- C4 counterexample: the tech-list parser accepts `"Python, Python"` and
keeps the duplicate, and Tech Stack validation stores that non-distinct
sequence without complaint. -/
theorem c4_counterexample :
    tech_list_from_input "Python, Python" = ["Python", "Python"] ∧
    (validate_and_store "Tech Stack" "Python, Python" initSession).1 = none ∧
    (validate_and_store "Tech Stack" "Python, Python" initSession).2.techs =
      ["Python", "Python"] ∧
    ¬ (["Python", "Python"] : List String).Nodup := by
  exact ⟨rfl, rfl, rfl, by decide⟩

/-- C5 counterexample: the local part `"jdoe"` loses three characters to
the mask, so the output has three stars, not the four the claim states. -/
theorem c5_counterexample :
    mask_email "jdoe@example.com" = "j***@example.com" ∧
    "j***@example.com" ≠ "j****@example.com" := by
  exact ⟨rfl, by decide⟩

/-! ## C10: `mask_email` on a one-character local part -/

/-- C10: when the local part before the first `@` of the stripped email is
a single character, `mask_email` still appends one mask star after it, so
the masked local part is one character longer than the original; and for
any non-empty local part the masked output contains at least one star. -/
theorem c10_mask_email_single_char_local :
    (∀ (email : String) (u d : List Char),
      pySplitFirst '@' (pyStrip email).data = (u, some d) → u.length = 1 →
      mask_email email = ⟨u ++ '*' :: '@' :: d⟩ ∧ (u ++ ['*']).length = u.length + 1) ∧
    (∀ (email : String) (u d : List Char),
      pySplitFirst '@' (pyStrip email).data = (u, some d) → u ≠ [] →
      '*' ∈ (mask_email email).data) := by
  constructor
  · intro email u d hsplit hlen
    have hne : u.isEmpty = false := by
      cases u with
      | nil => simp at hlen
      | cons a t => rfl
    constructor
    · unfold mask_email mask_email_stripped
      rw [hsplit]
      simp only [hne, Bool.false_eq_true, if_false]
      cases u with
      | nil => simp at hlen
      | cons a t =>
        have ht : t = [] := by
          simpa using hlen
        subst ht
        rfl
    · simp [hlen]
  · intro email u d hsplit hne
    have hne2 : u.isEmpty = false := by
      cases u with
      | nil => exact absurd rfl hne
      | cons a t => rfl
    unfold mask_email mask_email_stripped
    rw [hsplit]
    simp only [hne2, Bool.false_eq_true, if_false]
    have hstar : '*' ∈ starsChars (max 1 (u.length - 1)) := by
      unfold starsChars
      have : 0 < max 1 (u.length - 1) := by omega
      exact List.mem_replicate.mpr ⟨by omega, rfl⟩
    simp [List.mem_append]
    right
    left
    exact hstar

/-- Witness for C10 at `"a@x.com"`. -/
theorem c10_witness :
    mask_email "a@x.com" = "a*@x.com" ∧ '*' ∈ (mask_email "a@x.com").data := by
  refine ⟨(c10_mask_email_single_char_local.1 "a@x.com" ['a'] "x.com".data rfl rfl).1, ?_⟩
  exact c10_mask_email_single_char_local.2 "a@x.com" ['a'] "x.com".data rfl (by simp)

/-! ## Helper lemmas for the rating regex -/

/-- A character matched by `[1-9]` is a word character. -/
theorem digit19_word (c : Char) (h : digit19 c = true) : wordChar c = true := by
  simp only [digit19, Bool.and_eq_true, decide_eq_true_eq] at h
  simp only [wordChar, isAsciiLetter, isAsciiDigit, Bool.or_eq_true, Bool.and_eq_true,
    decide_eq_true_eq]
  omega

/-- Every character of an accepted token is a word character. -/
theorem tokOk_word (tok : List Char) (h : tokOk tok) :
    ∀ x ∈ tok, wordChar x = true := by
  rcases h with ⟨d, rfl, hd⟩ | rfl
  · intro x hx
    simp only [List.mem_singleton] at hx
    subst hx
    exact digit19_word x hd
  · intro x hx
    simp only [List.mem_cons, List.not_mem_nil, or_false] at hx
    rcases hx with rfl | rfl <;> decide

/-- An accepted token starts with a `[1-9]` digit. -/
theorem tokOk_head (tok : List Char) (h : tokOk tok) :
    ∃ d r, tok = d :: r ∧ digit19 d = true := by
  rcases h with ⟨d, rfl, hd⟩ | rfl
  · exact ⟨d, [], rfl, hd⟩
  · exact ⟨'1', ['0'], rfl, by decide⟩

/-- The character before a span does not depend on the default when the
prefix is non-empty. -/
theorem prevOf_indep (p q : Option Char) (x : Char) (y : List Char) :
    prevOf p (x :: y) = prevOf q (x :: y) := by
  unfold prevOf
  cases h : (x :: y).getLast? with
  | none =>
    rw [List.getLast?_eq_none_iff] at h
    cases h
  | some z => rfl

/-- Peeling one character off the prefix shifts the `prev` marker. -/
theorem prevOf_cons (prev : Option Char) (c : Char) (a : List Char) :
    prevOf prev (c :: a) = prevOf (some c) a := by
  cases a with
  | nil => rfl
  | cons a1 a2 =>
    show prevOf prev (c :: a1 :: a2) = prevOf (some c) (a1 :: a2)
    exact prevOf_indep prev (some c) a1 a2

/-- One regex position matches exactly when the remaining text starts with
an accepted token delimited on both sides. -/
theorem tryHere_isSome_iff (prev : Option Char) (c : Char) (rest : List Char) :
    (tryHere prev c rest).isSome = true ↔
      ∃ tok b, c :: rest = tok ++ b ∧ tokOk tok ∧
        nonWordAt prev = true ∧ nonWordAt b.head? = true := by
  constructor
  · intro h
    unfold tryHere at h
    by_cases hg : (nonWordAt prev && digit19 c) = true
    · rw [if_pos hg] at h
      obtain ⟨hp, hd⟩ := Bool.and_eq_true_iff.mp hg
      by_cases hr : nonWordAt rest.head? = true
      · exact ⟨[c], rest, rfl, Or.inl ⟨c, rfl, hd⟩, hp, hr⟩
      · rw [if_neg hr] at h
        by_cases h1 : (c == '1') = true
        · rw [if_pos h1] at h
          cases rest with
          | nil => simp at h
          | cons c2 r2 =>
            dsimp only at h
            by_cases h0 : (c2 == '0' && nonWordAt r2.head?) = true
            · obtain ⟨h0a, h0b⟩ := Bool.and_eq_true_iff.mp h0
              have hc : c = '1' := by simpa using h1
              have hc2 : c2 = '0' := by simpa using h0a
              subst hc
              subst hc2
              exact ⟨['1', '0'], r2, rfl, Or.inr rfl, hp, h0b⟩
            · rw [if_neg h0] at h
              simp at h
        · rw [if_neg h1] at h
          simp at h
    · rw [if_neg hg] at h
      simp at h
  · rintro ⟨tok, b, heq, htok, hp, hb⟩
    unfold tryHere
    rcases htok with ⟨d, rfl, hd⟩ | rfl
    · have h2 : c :: rest = d :: b := by simpa using heq
      injection h2 with ha hrest
      subst ha
      subst hrest
      rw [if_pos (by rw [hp, hd]; rfl), if_pos hb]
      rfl
    · have h2 : c :: rest = '1' :: '0' :: b := by simpa using heq
      injection h2 with ha hrest
      subst ha
      subst hrest
      have hnw : nonWordAt (('0' :: b).head?) = false := rfl
      rw [if_pos (by rw [hp]; rfl)]
      rw [if_neg (by intro hcon; rw [hnw] at hcon; exact Bool.false_ne_true hcon)]
      rw [if_pos (by rfl)]
      dsimp only
      rw [if_pos (by rw [hb]; rfl)]
      rfl

/-- Any value a matching position yields lies in `[1, 10]`. -/
theorem tryHere_bounds (prev : Option Char) (c : Char) (rest : List Char) (n : Int)
    (h : tryHere prev c rest = some n) : 1 ≤ n ∧ n ≤ 10 := by
  unfold tryHere at h
  by_cases hg : (nonWordAt prev && digit19 c) = true
  · rw [if_pos hg] at h
    obtain ⟨_, hd⟩ := Bool.and_eq_true_iff.mp hg
    have hd2 : 49 ≤ c.toNat ∧ c.toNat ≤ 57 := by
      simpa [digit19] using hd
    by_cases hr : nonWordAt rest.head? = true
    · rw [if_pos hr] at h
      have h2 := Option.some.inj h
      omega
    · rw [if_neg hr] at h
      by_cases h1 : (c == '1') = true
      · rw [if_pos h1] at h
        cases rest with
        | nil => simp at h
        | cons c2 r2 =>
          dsimp only at h
          by_cases h0 : (c2 == '0' && nonWordAt r2.head?) = true
          · rw [if_pos h0] at h
            have h2 := Option.some.inj h
            omega
          · rw [if_neg h0] at h
            simp at h
      · rw [if_neg h1] at h
        simp at h
  · rw [if_neg hg] at h
    simp at h

/-- The leftmost search succeeds exactly when some delimited accepted token
occurs in the text. -/
theorem searchFrom_isSome_iff (l : List Char) : ∀ prev : Option Char,
    (searchFrom prev l).isSome = true ↔ MatchesFrom prev l := by
  induction l with
  | nil =>
    intro prev
    constructor
    · intro h
      simp [searchFrom] at h
    · rintro ⟨a, tok, b, heq, htok, _, _⟩
      have h2 := heq.symm
      simp only [List.append_eq_nil] at h2
      obtain ⟨d, r, rfl, _⟩ := tokOk_head tok htok
      simp at h2
  | cons c rest ih =>
    intro prev
    have hsplit : (searchFrom prev (c :: rest)).isSome =
        ((tryHere prev c rest).isSome || (searchFrom (some c) rest).isSome) := by
      cases htry : tryHere prev c rest with
      | some n => simp [searchFrom, htry]
      | none => simp [searchFrom, htry]
    rw [hsplit, Bool.or_eq_true]
    constructor
    · rintro (h | h)
      · obtain ⟨tok, b, heq, htok, hp, hb⟩ := (tryHere_isSome_iff prev c rest).mp h
        exact ⟨[], tok, b, by simpa using heq, htok, hp, hb⟩
      · obtain ⟨a, tok, b, heq, htok, hp, hb⟩ := (ih (some c)).mp h
        refine ⟨c :: a, tok, b, by simp [heq], htok, ?_, hb⟩
        rw [prevOf_cons]
        exact hp
    · rintro ⟨a, tok, b, heq, htok, hp, hb⟩
      cases a with
      | nil =>
        left
        apply (tryHere_isSome_iff prev c rest).mpr
        exact ⟨tok, b, by simpa using heq, htok, hp, hb⟩
      | cons a1 a2 =>
        right
        apply (ih (some c)).mpr
        have h2 : c :: rest = a1 :: (a2 ++ tok ++ b) := by simpa using heq
        injection h2 with ha hrest
        subst ha
        refine ⟨a2, tok, b, hrest, htok, ?_, hb⟩
        rw [prevOf_cons] at hp
        exact hp

/-- Any value the leftmost search returns lies in `[1, 10]`. -/
theorem searchFrom_bounds (l : List Char) : ∀ (prev : Option Char) (n : Int),
    searchFrom prev l = some n → 1 ≤ n ∧ n ≤ 10 := by
  induction l with
  | nil =>
    intro prev n h
    simp [searchFrom] at h
  | cons c rest ih =>
    intro prev n h
    unfold searchFrom at h
    cases htry : tryHere prev c rest with
    | none =>
      rw [htry] at h
      exact ih (some c) n h
    | some m =>
      rw [htry] at h
      have hmn : m = n := by simpa using h
      subst hmn
      exact tryHere_bounds prev c rest m htry

/-- Python whitespace is never a word character. -/
theorem pySpace_not_word (c : Char) (h : isPySpace c = true) : wordChar c = false := by
  simp only [isPySpace, Bool.or_eq_true, beq_iff_eq, Bool.and_eq_true,
    decide_eq_true_eq] at h
  rw [Bool.eq_false_iff]
  intro hw
  simp only [wordChar, isAsciiLetter, isAsciiDigit, Bool.or_eq_true, Bool.and_eq_true,
    decide_eq_true_eq, beq_iff_eq] at hw
  rcases h with h | h <;> rcases hw with ((hw | hw) | hw) | hw <;> omega

/-- A leading non-word character neither creates nor destroys a standalone
token. -/
theorem matches_cons_nonword (c : Char) (l : List Char) (hc : wordChar c = false) :
    MatchesFrom none (c :: l) ↔ MatchesFrom none l := by
  constructor
  · rintro ⟨a, tok, b, heq, htok, hp, hb⟩
    cases a with
    | nil =>
      obtain ⟨d, r, rfl, hd⟩ := tokOk_head tok htok
      have h2 : c :: l = d :: (r ++ b) := by simpa using heq
      injection h2 with ha _
      subst ha
      rw [digit19_word c hd] at hc
      cases hc
    | cons a1 a2 =>
      have h2 : c :: l = a1 :: (a2 ++ tok ++ b) := by simpa using heq
      injection h2 with ha hl
      subst ha
      refine ⟨a2, tok, b, hl, htok, ?_, hb⟩
      rw [prevOf_cons] at hp
      cases a2 with
      | nil => rfl
      | cons x y =>
        rw [prevOf_indep none (some c) x y]
        exact hp
  · rintro ⟨a, tok, b, heq, htok, hp, hb⟩
    refine ⟨c :: a, tok, b, by simp [heq], htok, ?_, hb⟩
    rw [prevOf_cons]
    cases a with
    | nil =>
      show nonWordAt (some c) = true
      simp [nonWordAt, hc]
    | cons x y =>
      rw [prevOf_indep (some c) none x y]
      exact hp

/-- A trailing non-word character neither creates nor destroys a standalone
token. -/
theorem matches_append_nonword (l : List Char) (c : Char) (hc : wordChar c = false) :
    MatchesFrom none (l ++ [c]) ↔ MatchesFrom none l := by
  constructor
  · rintro ⟨a, tok, b, heq, htok, hp, hb⟩
    rcases List.eq_nil_or_concat' b with rfl | ⟨b2, x, rfl⟩
    · -- the token would have to end in `c`
      obtain ⟨d, r, rfl, _⟩ := tokOk_head tok htok
      have hlast : (l ++ [c]).getLast? = some c := List.getLast?_concat l
      rw [heq] at hlast
      have hne : d :: r ≠ [] := by simp
      rw [List.append_nil, List.getLast?_append_of_ne_nil a hne] at hlast
      obtain ⟨z, hz⟩ : ∃ z, (d :: r).getLast? = some z ∧ z ∈ d :: r := by
        cases hzz : (d :: r).getLast? with
        | none =>
          rw [List.getLast?_eq_none_iff] at hzz
          cases hzz
        | some z =>
          refine ⟨z, rfl, ?_⟩
          exact List.mem_of_mem_getLast? hzz
      have hzc : z = c := by
        rw [hz.1] at hlast
        exact Option.some.inj hlast
      subst hzc
      rw [tokOk_word _ htok z hz.2] at hc
      cases hc
    · -- strip the trailing character off `b`
      have h2 : l ++ [c] = (a ++ tok ++ b2) ++ [x] := by
        rw [heq]
        simp
      have h3 : l = a ++ tok ++ b2 ∧ c = x := by
        have hrev := congrArg List.reverse h2
        simp only [List.reverse_append, List.reverse_cons, List.reverse_nil,
          List.nil_append, List.cons_append] at hrev
        injection hrev with hx hrest
        constructor
        · have := congrArg List.reverse hrest
          simpa [List.reverse_append] using this
        · exact hx
      refine ⟨a, tok, b2, h3.1, htok, hp, ?_⟩
      cases b2 with
      | nil => rfl
      | cons y ys => exact hb
  · rintro ⟨a, tok, b, heq, htok, hp, hb⟩
    refine ⟨a, tok, b ++ [c], by simp [heq], htok, hp, ?_⟩
    cases b with
    | nil =>
      show nonWordAt (some c) = true
      simp [nonWordAt, hc]
    | cons y ys => exact hb

/-- Dropping an all-non-word suffix preserves the predicate. -/
theorem matches_append_all_nonword (m t : List Char)
    (ht : ∀ x ∈ t, wordChar x = false) :
    MatchesFrom none (m ++ t) ↔ MatchesFrom none m := by
  induction t using List.reverseRecOn with
  | nil => simp
  | append_singleton t2 x ih =>
    rw [← List.append_assoc]
    rw [matches_append_nonword (m ++ t2) x (ht x (by simp))]
    exact ih (fun y hy => ht y (by simp [hy]))

/-- Dropping an all-non-word prefix preserves the predicate. -/
theorem matches_prefix_all_nonword (t m : List Char)
    (ht : ∀ x ∈ t, wordChar x = false) :
    MatchesFrom none (t ++ m) ↔ MatchesFrom none m := by
  induction t with
  | nil => simp
  | cons c t2 ih =>
    rw [List.cons_append, matches_cons_nonword c (t2 ++ m) (ht c (by simp))]
    exact ih (fun y hy => ht y (by simp [hy]))

/-- Stripping surrounding whitespace preserves the predicate: the
whitespace carries no tokens and no word characters. -/
theorem matches_stripData (l : List Char) :
    MatchesFrom none (stripData l) ↔ MatchesFrom none l := by
  unfold stripData
  have hmid : MatchesFrom none
      (((l.dropWhile isPySpace).reverse.dropWhile isPySpace).reverse) ↔
      MatchesFrom none (l.dropWhile isPySpace) := by
    have hdecomp : l.dropWhile isPySpace =
        ((l.dropWhile isPySpace).reverse.dropWhile isPySpace).reverse ++
        ((l.dropWhile isPySpace).reverse.takeWhile isPySpace).reverse := by
      conv_lhs => rw [← List.reverse_reverse (l.dropWhile isPySpace),
        ← List.takeWhile_append_dropWhile (p := isPySpace)
          (l := (l.dropWhile isPySpace).reverse)]
      rw [List.reverse_append]
    conv_rhs => rw [hdecomp]
    rw [matches_append_all_nonword]
    intro x hx
    rw [List.mem_reverse] at hx
    exact pySpace_not_word x (List.mem_takeWhile_imp hx)
  rw [hmid]
  conv_rhs => rw [← List.takeWhile_append_dropWhile (p := isPySpace) (l := l)]
  rw [matches_prefix_all_nonword]
  intro x hx
  exact pySpace_not_word x (List.mem_takeWhile_imp hx)

/-! ## C6: the rating parser -/

/-- C6: `parse_1_to_10` returns a value exactly when the input contains a
standalone whole-word token equal to `1`–`9` or exactly `10` (word-boundary
delimited on both sides); any returned value lies in `[1, 10]`; and the
embedded-digit inputs `"100"`, `"11"` and `"0"` are rejected. -/
theorem c6_parse_rating :
    (∀ s : String, (parse_1_to_10 s).isSome = true ↔ hasStandaloneToken s) ∧
    (∀ (s : String) (n : Int), parse_1_to_10 s = some n → 1 ≤ n ∧ n ≤ 10) ∧
    parse_1_to_10 "100" = none ∧ parse_1_to_10 "11" = none ∧
    parse_1_to_10 "0" = none := by
  refine ⟨?_, ?_, rfl, rfl, rfl⟩
  · intro s
    unfold parse_1_to_10 hasStandaloneToken
    rw [searchFrom_isSome_iff]
    exact matches_stripData s.data
  · intro s n h
    exact searchFrom_bounds _ none n h

/-- Witness for C6: `"I would say 8"` parses to `8`, which the theorem
places in `[1, 10]` and certifies as a standalone token. -/
theorem c6_witness :
    (1 ≤ (8 : Int) ∧ (8 : Int) ≤ 10) ∧ hasStandaloneToken "I would say 8" := by
  refine ⟨c6_parse_rating.2.1 "I would say 8" 8 rfl, ?_⟩
  exact (c6_parse_rating.1 "I would say 8").mp rfl

/-! ## Helper lemmas about `pyStrip` and `pyLower` -/

/-- Lower-casing maps whitespace to itself. -/
theorem pyLowerChar_of_space (c : Char) (h : isPySpace c = true) :
    pyLowerChar c = c := by
  unfold pyLowerChar
  rw [if_neg]
  simp only [isPySpace, Bool.or_eq_true, beq_iff_eq, Bool.and_eq_true,
    decide_eq_true_eq] at h
  intro hcon
  rcases h with h | h <;> omega

/-- A character whose lower-case form is not whitespace is not whitespace. -/
theorem not_space_of_pyLowerChar (c c2 : Char) (h : pyLowerChar c = c2)
    (h2 : isPySpace c2 = false) : isPySpace c = false := by
  by_cases hs : isPySpace c = true
  · rw [pyLowerChar_of_space c hs] at h
    subst h
    rw [hs] at h2
    cases h2
  · rwa [Bool.not_eq_true] at hs

/-- Dropping while a predicate holds skips a prefix on which it always
holds. -/
theorem dropWhile_append_of_all (p : Char → Bool) (a b : List Char)
    (ha : ∀ x ∈ a, p x = true) : (a ++ b).dropWhile p = b.dropWhile p := by
  induction a with
  | nil => rfl
  | cons c r ih =>
    rw [List.cons_append, List.dropWhile_cons_of_pos (ha c (by simp))]
    exact ih (fun x hx => ha x (by simp [hx]))

/-- `str.strip` of whitespace, then a text block with non-whitespace first
and last characters, then whitespace, is exactly the text block. -/
theorem stripData_sandwich (pre v post : List Char)
    (hpre : ∀ x ∈ pre, isPySpace x = true) (hpost : ∀ x ∈ post, isPySpace x = true)
    (c : Char) (r : List Char) (hv : v = c :: r) (hc : isPySpace c = false)
    (d : Char) (hd : v.getLast? = some d) (hdn : isPySpace d = false) :
    stripData ((pre ++ v) ++ post) = v := by
  unfold stripData
  rw [List.append_assoc, dropWhile_append_of_all isPySpace pre (v ++ post) hpre]
  subst hv
  rw [List.cons_append, List.dropWhile_cons_of_neg (by simp [hc])]
  rw [List.reverse_cons, List.reverse_append, List.append_assoc]
  rw [dropWhile_append_of_all isPySpace post.reverse (r.reverse ++ [c])
    (fun x hx => hpost x (List.mem_reverse.mp hx))]
  have hkeep : (r.reverse ++ [c]).dropWhile isPySpace = r.reverse ++ [c] := by
    cases r with
    | nil =>
      simp only [List.reverse_nil, List.nil_append]
      rw [List.dropWhile_cons_of_neg (by simp [hc])]
    | cons y ys =>
      have hne : (y :: ys).reverse ≠ [] := by simp
      have hh : ((y :: ys).reverse ++ [c]).head? = (y :: ys).getLast? := by
        rw [List.head?_append_of_ne_nil _ hne, List.head?_reverse]
      have hlast : (y :: ys).getLast? = some d := hd
      cases hsh : (y :: ys).reverse ++ [c] with
      | nil =>
        exact absurd hsh (by simp)
      | cons z zs =>
        have h5 : (y :: ys).getLast? = some z := by
          rw [← hh, hsh]
          rfl
        have hz : d = z := by
          rw [hlast] at h5
          exact Option.some.inj h5
        rw [List.dropWhile_cons_of_neg (by simp [← hz, hdn])]
  rw [hkeep]
  simp

/-- Every end keyword starts and ends with a non-whitespace character. -/
theorem kw_shape (w : String) (hw : w ∈ END_KEYWORDS) :
    (∃ c r2, w.data = c :: r2 ∧ isPySpace c = false) ∧
    (∃ d, w.data.getLast? = some d ∧ isPySpace d = false) := by
  fin_cases hw <;> exact ⟨⟨_, _, rfl, by decide⟩, ⟨_, rfl, by decide⟩⟩

/-! ## C8: the end-keyword test -/

/-- C8: `is_end_message` is true exactly when the trimmed, lower-cased
input is a member of the closed keyword set; any member in any letter case
with surrounding whitespace is accepted; `"goodbye"` is rejected. -/
theorem c8_is_end_message :
    (∀ s : String, is_end_message s = true ↔ pyLower (pyStrip s) ∈ END_KEYWORDS) ∧
    (∀ w v pre post : String, w ∈ END_KEYWORDS → pyLower v = w →
      (∀ x ∈ pre.data, isPySpace x = true) → (∀ x ∈ post.data, isPySpace x = true) →
      is_end_message (pre ++ v ++ post) = true) ∧
    is_end_message "goodbye" = false := by
  refine ⟨?_, ?_, rfl⟩
  · intro s
    unfold is_end_message
    exact List.elem_iff
  · intro w v pre post hw hlv hpre hpost
    have hmap0 : v.data.map pyLowerChar = w.data := congrArg String.data hlv
    obtain ⟨⟨wc, wr, hwd, hwc⟩, ⟨wd, hwld, hwdn⟩⟩ := kw_shape w hw
    have hmap1 : v.data.map pyLowerChar = wc :: wr := by rw [hmap0, hwd]
    obtain ⟨c, r2, hvd, hfc, _⟩ := List.map_eq_cons_iff.mp hmap1
    have hcs : isPySpace c = false := not_space_of_pyLowerChar c wc hfc hwc
    have h6 : v.data.getLast?.map pyLowerChar = some wd := by
      rw [← List.getLast?_map pyLowerChar v.data, hmap0, hwld]
    obtain ⟨dv, hvl⟩ : ∃ dv, v.data.getLast? = some dv := by
      cases hvl2 : v.data.getLast? with
      | none =>
        rw [hvl2] at h6
        simp at h6
      | some dv => exact ⟨dv, rfl⟩
    have h7 : pyLowerChar dv = wd := by
      rw [hvl] at h6
      simpa using h6
    have hds : isPySpace dv = false := not_space_of_pyLowerChar dv wd h7 hwdn
    have hstr : pyStrip (pre ++ v ++ post) = v := by
      show (⟨stripData ((pre.data ++ v.data) ++ post.data)⟩ : String) = v
      rw [stripData_sandwich pre.data v.data post.data hpre hpost c r2 hvd hcs dv hvl hds]
    unfold is_end_message
    rw [hstr, hlv]
    exact List.elem_iff.mpr hw

/-- Witness for C8: a cased, whitespace-padded keyword is accepted and
`"goodbye"` is not. -/
theorem c8_witness :
    is_end_message ("  " ++ "ThAnK yOu" ++ " ") = true ∧
    is_end_message "goodbye" = false := by
  refine ⟨c8_is_end_message.2.1 "thank you" "ThAnK yOu" "  " " "
    (by decide) rfl (by decide) (by decide), c8_is_end_message.2.2⟩

/-! ## Helper lemmas about `pySplitFirst` -/

/-- Splitting at a character that does not occur returns the whole list and
no second part. -/
theorem pySplitFirst_of_not_contains (sep : Char) (l : List Char)
    (h : l.contains sep = false) : pySplitFirst sep l = (l, none) := by
  induction l with
  | nil => rfl
  | cons c r ih =>
    simp only [List.contains_cons, Bool.or_eq_false_iff] at h
    unfold pySplitFirst
    rw [if_neg]
    · rw [ih h.2]
    · simp only [beq_iff_eq]
      intro hc
      subst hc
      simp at h

/-- Splitting `u ++ sep :: d` where `u` avoids `sep` finds exactly that
first separator. -/
theorem pySplitFirst_append_sep (sep : Char) (u d : List Char)
    (h : u.contains sep = false) : pySplitFirst sep (u ++ sep :: d) = (u, some d) := by
  induction u with
  | nil => simp [pySplitFirst]
  | cons c r ih =>
    simp only [List.contains_cons, Bool.or_eq_false_iff] at h
    rw [List.cons_append]
    unfold pySplitFirst
    rw [if_neg]
    · rw [ih h.2]
    · simp only [beq_iff_eq]
      intro hc
      subst hc
      simp at h

/-! ## C5: `mask_email` -/

/-- C5 (amended): `mask_email "jdoe@example.com"` is `"j***@example.com"`
(one star per masked character, three in total — not four); in general,
for a stripped email `u ++ "@" ++ d` with a non-empty `@`-free local part
`u`, the result keeps the first character of `u`, appends
`max 1 (len u - 1)` stars and the unmodified domain; and without an `@`,
or with an empty local part, the function falls back to `anonymize`. -/
theorem c5_amended :
    mask_email "jdoe@example.com" = "j***@example.com" ∧
    (∀ e : String, (pyStrip e).data.contains '@' = false →
      mask_email e = anonymize (pyStrip e)) ∧
    (∀ u d : String, pyStrip (u ++ "@" ++ d) = u ++ "@" ++ d →
      u.data.contains '@' = false → u.data ≠ [] →
      mask_email (u ++ "@" ++ d) =
        ⟨u.data.take 1 ++ starsChars (max 1 (u.data.length - 1)) ++ '@' :: d.data⟩) ∧
    (∀ d : String, pyStrip ("@" ++ d) = "@" ++ d →
      mask_email ("@" ++ d) = anonymize ("@" ++ d)) := by
  refine ⟨rfl, ?_, ?_, ?_⟩
  · intro e h
    unfold mask_email mask_email_stripped
    rw [pySplitFirst_of_not_contains '@' _ h]
  · intro u d hstrip hu hne
    have hdata : (u ++ "@" ++ d).data = u.data ++ '@' :: d.data := by
      show (u.data ++ ['@']) ++ d.data = u.data ++ '@' :: d.data
      simp
    have hempty : u.data.isEmpty = false := by
      cases hd : u.data with
      | nil => exact absurd hd hne
      | cons a t => rfl
    unfold mask_email
    rw [hstrip]
    unfold mask_email_stripped
    rw [hdata, pySplitFirst_append_sep '@' _ _ hu]
    simp only [hempty, Bool.false_eq_true, if_false]
  · intro d hstrip
    have hdata : ("@" ++ d).data = ([] : List Char) ++ '@' :: d.data := rfl
    unfold mask_email
    rw [hstrip]
    unfold mask_email_stripped
    rw [hdata, pySplitFirst_append_sep '@' [] d.data rfl]
    rfl

/-- Witness for C5 at `"jdoe@example.com"`, `"no at sign"` and
`"@domain.xy"`. -/
theorem c5_witness :
    mask_email ("jdoe" ++ "@" ++ "example.com") =
      ⟨"jdoe".data.take 1 ++ starsChars (max 1 ("jdoe".data.length - 1)) ++
        '@' :: "example.com".data⟩ ∧
    mask_email "no at sign" = anonymize (pyStrip "no at sign") ∧
    mask_email ("@" ++ "domain.xy") = anonymize ("@" ++ "domain.xy") := by
  refine ⟨c5_amended.2.2.1 "jdoe" "example.com" rfl rfl ?_, ?_, ?_⟩
  · simp
  · exact c5_amended.2.1 "no at sign" rfl
  · exact c5_amended.2.2.2 "domain.xy" rfl

/-! ## C4: the tech list after Tech Stack validation -/

/-- C4 (amended): successful Tech Stack validation stores exactly the
parsed comma list — trimmed tokens, empty and letter-free tokens dropped,
tokens truncated to 50 characters, at most 10 kept, input order preserved —
and that list is non-empty; duplicates are not removed, so the entries need
not be pairwise distinct (see the counterexample). -/
theorem c4_amended :
    (∀ (s : Session) (u : String), (validate_and_store "Tech Stack" u s).1 = none →
      (validate_and_store "Tech Stack" u s).2.techs = tech_list_from_input (pyStrip u) ∧
      (validate_and_store "Tech Stack" u s).2.techs ≠ []) ∧
    (∀ w : String, (tech_list_from_input w).length ≤ 10 ∧
      ∀ t ∈ tech_list_from_input w, t ≠ "" ∧ t.length ≤ 50) := by
  constructor
  · intro s u h
    simp only [validate_and_store, String.reduceEq, if_false] at h ⊢
    by_cases hc : (tech_list_from_input (pyStrip u)).isEmpty
    · rw [if_pos hc] at h
      simp at h
    · rw [if_neg hc] at h ⊢
      refine ⟨rfl, ?_⟩
      simpa [List.isEmpty_iff] using hc
  · intro w
    constructor
    · simp only [tech_list_from_input, List.length_map, List.length_take]
      omega
    · intro t ht
      simp only [tech_list_from_input, List.mem_map] at ht
      obtain ⟨lc, hlc, rfl⟩ := ht
      have hlc2 := List.mem_of_mem_take hlc
      simp only [List.mem_map, List.mem_filter] at hlc2
      obtain ⟨l, ⟨_, hprop⟩, rfl⟩ := hlc2
      simp only [Bool.and_eq_true, Bool.not_eq_true] at hprop
      constructor
      · intro hcon
        have := congrArg String.data hcon
        simp only [List.take_eq_nil_iff] at this
        rcases this with h50 | hnil
        · exact absurd h50 (by decide)
        · rw [hnil] at hprop
          simp at hprop
      · show (l.take 50).length ≤ 50
        simp only [List.length_take]
        omega

/-- Witness for C4 at the input `"Python, Django"`. -/
theorem c4_witness :
    (validate_and_store "Tech Stack" "Python, Django" initSession).2.techs =
      tech_list_from_input (pyStrip "Python, Django") ∧
    (validate_and_store "Tech Stack" "Python, Django" initSession).2.techs ≠ [] := by
  exact c4_amended.1 initSession "Python, Django" rfl

/-! ## Helper lemmas about Python dictionaries and question sanitisation -/

/-- Lookup after a `dict` assignment. -/
theorem dictGet_dictSet {α : Type} (m : List (String × α)) (k : String) (v : α)
    (q : String) : dictGet (dictSet m k v) q = if q = k then some v else dictGet m q := by
  induction m with
  | nil =>
    simp only [dictSet, dictGet]
    by_cases hq : q = k
    · subst hq
      simp
    · rw [if_neg (fun h => hq h.symm), if_neg hq]
  | cons p r ih =>
    obtain ⟨k2, w⟩ := p
    simp only [dictSet]
    by_cases hk : k2 = k
    · subst hk
      rw [if_pos rfl]
      simp only [dictGet]
      by_cases hq : q = k2
      · subst hq
        simp
      · rw [if_neg (fun h => hq h.symm), if_neg hq, if_neg (fun h => hq h.symm)]
    · rw [if_neg hk]
      simp only [dictGet, ih]
      by_cases hq : q = k2
      · subst hq
        rw [if_pos rfl, if_neg hk, if_pos rfl]
      · rw [if_neg (fun h => hq h.symm)]
        by_cases hqk : q = k
        · rw [if_pos hqk, if_pos hqk]
        · rw [if_neg hqk, if_neg hqk, if_neg (fun h => hq h.symm)]

/-- Lookup in the sanitisation fold: the final entry for `t` depends only
on the cleaned value of `t` and on whether `t` occurs in the iterated list. -/
theorem clean_fold_get (data : List (String × JVal)) (t : String) :
    ∀ (ts : List String) (acc : List (String × List String)),
      dictGet (ts.foldl (fun cleaned t2 =>
        match clean_one t2 (chain_lookup data t2) with
        | some qs => dictSet cleaned t2 qs
        | none => cleaned) acc) t =
      if t ∈ ts ∧ (clean_one t (chain_lookup data t)).isSome then
        clean_one t (chain_lookup data t)
      else dictGet acc t := by
  intro ts
  induction ts with
  | nil => intro acc; simp
  | cons t2 rest ih =>
    intro acc
    rw [List.foldl_cons, ih]
    by_cases ht : t = t2
    · subst ht
      cases hco : clean_one t (chain_lookup data t) with
      | none => simp [hco]
      | some qs =>
        by_cases hm : t ∈ rest <;> simp [hco, hm, dictGet_dictSet]
    · cases hco : clean_one t2 (chain_lookup data t2) with
      | none => simp [hco, ht]
      | some qs => simp [hco, dictGet_dictSet, ht, ih]

/-- Lookup in the sanitised question map. -/
theorem clean_questions_get (techs : List String) (data : List (String × JVal))
    (t : String) :
    dictGet (clean_questions techs data) t =
      if t ∈ techs then clean_one t (chain_lookup data t) else none := by
  unfold clean_questions
  rw [clean_fold_get]
  by_cases hm : t ∈ techs
  · cases hco : clean_one t (chain_lookup data t) with
    | none => simp [hm, hco, dictGet]
    | some qs => simp [hm, hco]
  · simp [hm, dictGet]

/-- Every kept question string is non-empty. -/
theorem usable_questions_nonempty (l : List JVal) :
    ∀ q ∈ usable_questions l, q ≠ "" := by
  intro q hq
  simp only [usable_questions, List.mem_filterMap] at hq
  obtain ⟨a, _, ha⟩ := hq
  by_cases hs : pyStrip (jstr a) = ""
  · simp [hs] at ha
  · simp only [hs, if_neg, ite_false] at ha
    replace ha := Option.some.inj ha
    subst ha
    exact hs

/-- The three fallback questions are non-empty. -/
theorem fallback_questions_nonempty (t : String) :
    ∀ q ∈ fallback_questions t, q ≠ "" := by
  intro q hq
  have hlen : ∀ (a b : String), (a ++ t ++ b).length = a.length + t.length + b.length := by
    intro a b
    show ((a.data ++ t.data) ++ b.data).length = a.data.length + t.data.length + b.data.length
    simp only [List.length_append]
  intro hcon
  have h0 : q.length = 0 := by rw [hcon]; rfl
  simp only [fallback_questions, List.mem_cons, List.not_mem_nil, or_false] at hq
  rcases hq with rfl | rfl | rfl
  · rw [hlen] at h0
    have hp : 0 < ("Briefly explain a key concept in " : String).length := by decide
    omega
  · rw [hlen] at h0
    have hp : 0 < ("How do you debug common issues in " : String).length := by decide
    omega
  · rw [hlen] at h0
    have hp : 0 < ("Describe a challenging " : String).length := by decide
    omega

/-- When the looked-up value is a JSON list, the sanitised questions number
between 3 and 5 and are all non-empty. -/
theorem clean_one_bounds (t : String) (l : List JVal) (qs : List String)
    (h : clean_one t (JVal.arr l) = some qs) :
    3 ≤ qs.length ∧ qs.length ≤ 5 ∧ ∀ q ∈ qs, q ≠ "" := by
  simp only [clean_one, Option.some.injEq] at h
  subst h
  by_cases hn : (usable_questions l).length < 3
  · rw [if_pos hn]
    refine ⟨?_, ?_, ?_⟩
    · rw [List.length_take, List.length_append]
      have h3 : (fallback_questions t).length = 3 := rfl
      omega
    · rw [List.length_take]
      omega
    · intro q hq
      have hq2 := List.mem_of_mem_take hq
      rcases List.mem_append.mp hq2 with hu | hf
      · exact usable_questions_nonempty l q hu
      · exact fallback_questions_nonempty t q hf
  · rw [if_neg hn]
    refine ⟨?_, ?_, ?_⟩
    · rw [List.length_take]
      omega
    · rw [List.length_take]
      omega
    · intro q hq
      exact usable_questions_nonempty l q (List.mem_of_mem_take hq)

/-! ## C2: the shape guarantee of `llm_generate_questions` -/

/-- C2 (amended): when the backend call succeeds, the generator returns the
sanitised map of the extracted JSON, and in that map every requested tech
whose looked-up value is a JSON list (including the empty-list default for
missing or falsy lookups) is present with 3–5 non-empty questions; but a
tech whose looked-up value is truthy and not a list is omitted from the
mapping altogether (see the counterexample). -/
theorem c2_amended :
    (∀ (techs : List String) (data : List (String × JVal)) (t : String), t ∈ techs →
      (∀ l, chain_lookup data t = JVal.arr l →
        ∃ qs, dictGet (clean_questions techs data) t = some qs ∧
          3 ≤ qs.length ∧ qs.length ≤ 5 ∧ ∀ q ∈ qs, q ≠ "") ∧
      (truthy (chain_lookup data t) = true →
        (∀ l, chain_lookup data t ≠ JVal.arr l) →
        dictGet (clean_questions techs data) t = none)) ∧
    (∀ (B : Backend) (techs : List String) (raw : String),
      safe_generate B (questions_prompt techs) 3 = Except.ok raw →
      llm_generate_questions B techs =
        Except.ok (clean_questions techs ((safe_extract_json raw).getD []))) := by
  constructor
  · intro techs data t hmem
    constructor
    · intro l harr
      rw [clean_questions_get, if_pos hmem, harr]
      cases hco : clean_one t (JVal.arr l) with
      | none => simp [clean_one] at hco
      | some qs => exact ⟨qs, rfl, clean_one_bounds t l qs hco⟩
    · intro _ hnarr
      rw [clean_questions_get, if_pos hmem]
      cases hv : chain_lookup data t with
      | arr l => exact absurd hv (hnarr l)
      | null => rfl
      | bool b => rfl
      | num n => rfl
      | str s => rfl
      | obj m => rfl
  · intro B techs raw h
    unfold llm_generate_questions
    rw [h]

/-- Witness for C2: a parsed object mapping `"Python"` to a three-question
list yields an entry with exactly those bounds, and a successful backend
call makes the generator return the sanitised map of what it extracted. -/
theorem c2_witness :
    (∃ qs, dictGet (clean_questions ["Python"]
        [("Python", JVal.arr [JVal.str "A1", JVal.str "B2", JVal.str "C3"])]) "Python" =
        some qs ∧ 3 ≤ qs.length ∧ qs.length ≤ 5 ∧ ∀ q ∈ qs, q ≠ "") ∧
    llm_generate_questions oopsBackend ["Python"] =
      Except.ok (clean_questions ["Python"] ((safe_extract_json oopsJson).getD [])) := by
  constructor
  · exact (c2_amended.1 ["Python"]
      [("Python", JVal.arr [JVal.str "A1", JVal.str "B2", JVal.str "C3"])] "Python"
      (by simp)).1 [JVal.str "A1", JVal.str "B2", JVal.str "C3"] rfl
  · exact c2_amended.2 oopsBackend ["Python"] oopsJson rfl

/-! ## C9: a scoring failure never aborts the question phase -/

/-- C9: in the question-asking phase, when the scorer fails on the current
answer, the handler still completes normally, appends exactly one answer
record with absent score and absent feedback, advances the cursor, and
continues to the next question (same phase) or, after the last question,
through summarising to `done`. -/
theorem c9_scorer_failure_degrades (B : Backend) (s : Session) (msg : String)
    (h0 : is_end_message msg = false) (h1 : s.step = Step.tech_q)
    (h : s.q_ptr < s.flat_questions.length)
    (hf : llm_score_answer B (s.flat_questions[s.q_ptr]).2 (pyStrip msg) =
      Except.error ()) :
    (handle_message B s msg).isOk = true ∧
    (handle_message B s msg).state.answers =
      s.answers ++ [{ tech := (s.flat_questions[s.q_ptr]).1,
                      question := (s.flat_questions[s.q_ptr]).2,
                      answer := pyStrip msg, score := none, feedback := none }] ∧
    (handle_message B s msg).state.q_ptr = s.q_ptr + 1 ∧
    (s.q_ptr + 1 < s.flat_questions.length →
      (handle_message B s msg).state.step = Step.tech_q) ∧
    (¬ s.q_ptr + 1 < s.flat_questions.length →
      (handle_message B s msg).state.step = Step.done) := by
  obtain ⟨hist, stp, fi, cand, tch, rts, qm, fq, qp, ans, cons, ri, fs⟩ := s
  dsimp only at h1 h hf ⊢
  subst h1
  unfold handle_message
  simp only [h0, Bool.false_eq_true, if_false]
  unfold addUser
  dsimp only
  unfold handleTechQ
  dsimp only
  rw [dif_pos h, hf]
  by_cases h2 : qp + 1 < fq.length
  · rw [dif_pos h2]
    exact ⟨rfl, rfl, rfl, fun _ => rfl, fun hc => absurd h2 hc⟩
  · rw [dif_neg h2]
    exact ⟨rfl, rfl, rfl, fun hc => absurd hc h2, fun _ => rfl⟩

/-- Witness for C9: one pending question, a backend that always fails. -/
theorem c9_witness :
    (handle_message failBackend exampleTechQSession "my answer").isOk = true ∧
    (handle_message failBackend exampleTechQSession "my answer").state.answers =
      exampleTechQSession.answers ++
        [{ tech := "Python", question := "Qx", answer := pyStrip "my answer",
           score := none, feedback := none }] ∧
    (handle_message failBackend exampleTechQSession "my answer").state.q_ptr = 1 ∧
    (handle_message failBackend exampleTechQSession "my answer").state.step = Step.done := by
  have h := c9_scorer_failure_degrades failBackend exampleTechQSession "my answer"
    rfl rfl (by decide) rfl
  exact ⟨h.1, h.2.1, h.2.2.1, h.2.2.2.2 (by decide)⟩

/-! ## Dispatch lemmas for the message handler -/

/-- A non-end message is logged and dispatched to the phase handler of the
current step. -/
theorem handle_message_dispatch (B : Backend) (s : Session) (msg : String)
    (hb : is_end_message msg = false) :
    handle_message B s msg =
      (match s.step with
       | Step.fields => handleFields (addUser s msg) msg
       | Step.ratings => handleRatings B (addUser s msg) msg
       | Step.tech_q => handleTechQ B (addUser s msg) msg
       | Step.summary =>
         Outcome.ok (say (addUser s msg) "Thanks again! You may close this window. 👋") [] false
       | Step.done =>
         Outcome.ok (say (addUser s msg) "Session completed. Type \x27exit\x27 to close.") [] false
       | Step.greet => Outcome.ok (addUser s msg) [] false) := by
  unfold handle_message
  rw [hb]
  rfl

/-- Dispatch to the question phase. -/
theorem handle_message_of_tech_q (B : Backend) (s : Session) (msg : String)
    (hb : is_end_message msg = false) (h1 : s.step = Step.tech_q) :
    handle_message B s msg = handleTechQ B (addUser s msg) msg := by
  rw [handle_message_dispatch B s msg hb, h1]

/-- Dispatch to the rating phase. -/
theorem handle_message_of_ratings (B : Backend) (s : Session) (msg : String)
    (hb : is_end_message msg = false) (h1 : s.step = Step.ratings) :
    handle_message B s msg = handleRatings B (addUser s msg) msg := by
  rw [handle_message_dispatch B s msg hb, h1]

/-- Dispatch to the field-collection phase. -/
theorem handle_message_of_fields (B : Backend) (s : Session) (msg : String)
    (hb : is_end_message msg = false) (h1 : s.step = Step.fields) :
    handle_message B s msg = handleFields (addUser s msg) msg := by
  rw [handle_message_dispatch B s msg hb, h1]

/-- The question phase never lets an exception escape: the scorer call is
guarded by `try`/`except`, and so is the summary call. -/
theorem handleTechQ_isOk (B : Backend) (s : Session) (msg : String) :
    (handleTechQ B s msg).isOk = true := by
  unfold handleTechQ
  by_cases hq : s.q_ptr < s.flat_questions.length
  · rw [dif_pos hq]
    by_cases h2 : s.q_ptr + 1 < s.flat_questions.length
    · rw [dif_pos h2]
      rfl
    · rw [dif_neg h2]
      rfl
  · rw [dif_neg hq]
    rfl

/-- When the last rating arrives and question generation fails, the rating
handler ends in `raised` without changing the step. -/
theorem handleRatings_raises_on_last (B : Backend) (s : Session) (msg : String)
    (hidx : s.rating_idx < s.techs.length)
    (hlast : s.rating_idx + 1 = s.techs.length) (v : Int)
    (hv : parse_1_to_10 msg = some v)
    (hgen : llm_generate_questions B s.techs = Except.error ()) :
    (handleRatings B s msg).isRaised = true ∧
    (handleRatings B s msg).state.step = s.step := by
  unfold handleRatings
  rw [dif_pos hidx]
  simp only [hv]
  rw [dif_neg (show ¬ s.rating_idx + 1 < s.techs.length by omega)]
  simp only [hgen]
  exact ⟨rfl, rfl⟩

/-! ## C1: degradation behaviour of the generation call sites -/

/-- C1 (amended): with a backend that always fails, the question-asking
phase still completes normally — both the scoring and the summary call
sites catch the failure and degrade — but the question-generation call
site after the last rating has no such guard: the failure propagates out
of the handler as an uncaught exception and the session stays in the
rating phase instead of reaching the question-asking phase. -/
theorem c1_amended (s : Session) (msg : String) :
    (s.step = Step.tech_q → (handle_message failBackend s msg).isOk = true) ∧
    (s.step = Step.ratings → is_end_message msg = false →
      s.rating_idx < s.techs.length → s.rating_idx + 1 = s.techs.length →
      (parse_1_to_10 msg).isSome = true →
      (handle_message failBackend s msg).isRaised = true ∧
      (handle_message failBackend s msg).state.step = Step.ratings) := by
  constructor
  · intro h1
    cases hb : is_end_message msg with
    | true =>
      unfold handle_message
      rw [hb]
      rfl
    | false =>
      rw [handle_message_of_tech_q failBackend s msg hb h1]
      exact handleTechQ_isOk failBackend (addUser s msg) msg
  · intro h1 hb hidx hlast hv
    obtain ⟨v, hv2⟩ := Option.isSome_iff_exists.mp hv
    rw [handle_message_of_ratings failBackend s msg hb h1]
    have hgen : llm_generate_questions failBackend (addUser s msg).techs =
        Except.error () := rfl
    have hmain := handleRatings_raises_on_last failBackend (addUser s msg) msg
      hidx hlast v hv2 hgen
    refine ⟨hmain.1, ?_⟩
    rw [hmain.2]
    exact h1

/-! ## Helper lemmas describing `field_index` movement -/

/-- Validation never touches `field_index`. -/
theorem validate_and_store_field_index (f u : String) (s : Session) :
    ((validate_and_store f u s).2).field_index = s.field_index := by
  unfold validate_and_store
  split_ifs <;> rfl

/-- The validation verdict depends only on the field and the input, not on
the session. -/
theorem validate_and_store_err (f u : String) (s s2 : Session) :
    (validate_and_store f u s).1 = (validate_and_store f u s2).1 := by
  unfold validate_and_store
  split_ifs <;> rfl

/-- `ask_next_field` only talks; it never moves the cursor. -/
theorem ask_next_field_field_index (s : Session) :
    (ask_next_field s).field_index = s.field_index := by
  unfold ask_next_field
  cases FIELDS.get? s.field_index <;> rfl

/-- `field_index` after the field-collection phase, as an equation:
unchanged unless the current field exists and validation passes, in which
case it advances by exactly one. -/
theorem handleFields_fi_eq (s : Session) (msg : String) :
    (handleFields s msg).state.field_index =
      (match FIELDS.get? s.field_index with
       | none => s.field_index
       | some f =>
         if (validate_and_store f msg s).1 = none then s.field_index + 1
         else s.field_index) := by
  unfold handleFields
  cases hg : FIELDS.get? s.field_index with
  | none => rfl
  | some f =>
    rcases hv : validate_and_store f msg s with ⟨err, s2⟩
    have hfi : s2.field_index = s.field_index := by
      have h := validate_and_store_field_index f msg s
      rw [hv] at h
      exact h
    simp only [hv]
    cases err with
    | some e =>
      rw [if_neg (by simp)]
      exact hfi
    | none =>
      rw [if_pos rfl]
      dsimp only
      by_cases hlt : s2.field_index + 1 < FIELDS.length
      · rw [if_pos hlt]
        show (ask_next_field _).field_index = s.field_index + 1
        rw [ask_next_field_field_index]
        show s2.field_index + 1 = s.field_index + 1
        omega
      · rw [if_neg hlt]
        cases hts : s2.techs with
        | cons t r =>
          show s2.field_index + 1 = s.field_index + 1
          omega
        | nil =>
          show s2.field_index + 1 = s.field_index + 1
          omega

/-- The same equation, for the session with the user message logged, phrased
over the fields of the original session. -/
theorem handleFields_addUser_fi (s : Session) (msg : String) :
    (handleFields (addUser s msg) msg).state.field_index =
      (match FIELDS.get? s.field_index with
       | none => s.field_index
       | some f =>
         if (validate_and_store f msg s).1 = none then s.field_index + 1
         else s.field_index) := by
  rw [handleFields_fi_eq (addUser s msg) msg]
  show (match FIELDS.get? s.field_index with
        | none => s.field_index
        | some f =>
          if (validate_and_store f msg (addUser s msg)).1 = none then s.field_index + 1
          else s.field_index) = _
  cases hg : FIELDS.get? s.field_index with
  | none => rfl
  | some f =>
    dsimp only
    rw [validate_and_store_err f msg (addUser s msg) s]

/-- `field_index` movement in the rating phase: unchanged, except on the
empty-flattened-questions recovery transition, which re-targets the Tech
Stack field and re-enters the field-collection phase. -/
theorem handleRatings_field_index (B : Backend) (s : Session) (msg : String) :
    (handleRatings B s msg).state.field_index = s.field_index ∨
    ((handleRatings B s msg).state.field_index =
        FIELDS.findIdx (fun f => f = "Tech Stack") ∧
      (handleRatings B s msg).state.step = Step.fields) := by
  unfold handleRatings
  by_cases hidx : s.rating_idx < s.techs.length
  · rw [dif_pos hidx]
    cases hv : parse_1_to_10 msg with
    | none =>
      left
      rfl
    | some v =>
      dsimp only
      by_cases h2 : s.rating_idx + 1 < s.techs.length
      · rw [dif_pos h2]
        left
        rfl
      · rw [dif_neg h2]
        cases hg : llm_generate_questions B s.techs with
        | error e =>
          left
          rfl
        | ok qm =>
          dsimp only
          split
          · left
            rfl
          · right
            exact ⟨rfl, rfl⟩
  · rw [dif_neg hidx]
    left
    rfl

/-- The question phase never touches `field_index`. -/
theorem handleTechQ_field_index (B : Backend) (s : Session) (msg : String) :
    (handleTechQ B s msg).state.field_index = s.field_index := by
  unfold handleTechQ
  by_cases hq : s.q_ptr < s.flat_questions.length
  · rw [dif_pos hq]
    by_cases h2 : s.q_ptr + 1 < s.flat_questions.length
    · rw [dif_pos h2]
      rfl
    · rw [dif_neg h2]
      rfl
  · rw [dif_neg hq]
    rfl

/-! ## C3: movement of `field_index` -/

/-- C3 (amended): handling a message leaves `field_index` unchanged, except
that (a) in the field-collection phase it advances by exactly one — and
always does — when the current field exists and the value passes
validation, and (b) on the recovery transition of the rating phase (empty
flattened question sequence) it is reset to the index of the Tech Stack
field, `6`, which is a decrease from `len(FIELDS) = 7` in the reachable
situation (see the counterexample). -/
theorem c3_amended (B : Backend) (s : Session) (msg : String) :
    ((handle_message B s msg).state.field_index = s.field_index ∨
     ((handle_message B s msg).state.field_index = s.field_index + 1 ∧
       s.step = Step.fields ∧
       ∃ f, FIELDS.get? s.field_index = some f ∧
         (validate_and_store f msg s).1 = none) ∨
     ((handle_message B s msg).state.field_index =
         FIELDS.findIdx (fun f => f = "Tech Stack") ∧
       s.step = Step.ratings ∧
       (handle_message B s msg).state.step = Step.fields)) ∧
    (s.step = Step.fields → is_end_message msg = false →
      ∀ f, FIELDS.get? s.field_index = some f →
        (validate_and_store f msg s).1 = none →
        (handle_message B s msg).state.field_index = s.field_index + 1) := by
  cases hb : is_end_message msg with
  | true =>
    constructor
    · left
      unfold handle_message
      rw [hb]
      rfl
    · intro _ hb2
      simp at hb2
  | false =>
    cases hstep : s.step with
    | fields =>
      rw [handle_message_of_fields B s msg hb hstep,
        handleFields_addUser_fi s msg]
      constructor
      · cases hg : FIELDS.get? s.field_index with
        | none =>
          left
          rfl
        | some f =>
          by_cases hvv : (validate_and_store f msg s).1 = none
          · right
            left
            refine ⟨?_, rfl, f, rfl, hvv⟩
            dsimp only
            rw [if_pos hvv]
          · left
            dsimp only
            rw [if_neg hvv]
      · intro _ _ f hf hv
        rw [hf]
        dsimp only
        rw [if_pos hv]
    | ratings =>
      rw [handle_message_of_ratings B s msg hb hstep]
      constructor
      · rcases handleRatings_field_index B (addUser s msg) msg with h | h
        · left
          exact h
        · right
          right
          exact ⟨h.1, rfl, h.2⟩
      · intro hsf
        exact Step.noConfusion hsf
    | tech_q =>
      rw [handle_message_of_tech_q B s msg hb hstep]
      constructor
      · left
        exact handleTechQ_field_index B (addUser s msg) msg
      · intro hsf
        exact Step.noConfusion hsf
    | summary =>
      rw [handle_message_dispatch B s msg hb, hstep]
      constructor
      · left
        rfl
      · intro hsf
        exact Step.noConfusion hsf
    | done =>
      rw [handle_message_dispatch B s msg hb, hstep]
      constructor
      · left
        rfl
      · intro hsf
        exact Step.noConfusion hsf
    | greet =>
      rw [handle_message_dispatch B s msg hb, hstep]
      constructor
      · left
        rfl
      · intro hsf
        exact Step.noConfusion hsf

/-- Witness for C3: successful Full Name validation advances `field_index`
from 0 to 1. -/
theorem c3_witness :
    (handle_message oopsBackend initSession "John Smith").state.field_index =
      initSession.field_index + 1 :=
  (c3_amended oopsBackend initSession "John Smith").2 rfl rfl "Full Name" rfl rfl

/-- Witness for C1: a question-phase session survives a failing backend,
and the reachable rating-phase session `s7ex` raises on its last rating
with a failing backend. -/
theorem c1_witness :
    (handle_message failBackend exampleTechQSession "my answer").isOk = true ∧
    (handle_message failBackend s7ex "7").isRaised = true ∧
    (handle_message failBackend s7ex "7").state.step = Step.ratings := by
  refine ⟨(c1_amended exampleTechQSession "my answer").1 rfl, ?_⟩
  exact (c1_amended s7ex "7").2 rfl rfl (by decide) (by decide) rfl

